import Mathlib

/-!
ION CMA heap exporter (`drivers/staging/android/ion/heaps/ion_cma_heap.c`).

A shallow embedding of the heap registration code (`__ion_add_cma_heap`,
`ion_cma_heap_init`, `ion_cma_heap_exit`) and of the buffer operations
(`ion_cma_allocate`, `ion_cma_free`).

Pointers are natural numbers with `0` for `NULL`; `unsigned long` values are
natural numbers reduced modulo `2 ^ 64`.  Calls into other kernel subsystems
are recorded in a call log, and their answers are inputs of the model.
-/

namespace IonCma

/-! ## Configuration and constants -/

/-- Build-time constants the source uses but does not define. -/
structure Config where
  PAGE_SHIFT : Nat
  CONFIG_CMA_ALIGNMENT : Nat
  MAX_CMA_AREAS : Nat
  ION_FLAG_CACHED : Nat

/-- Error code `ENOMEM` of `linux/errno.h`. -/
def ENOMEM : Int := 12

/-- Error code `EINVAL` of `linux/errno.h`. -/
def EINVAL : Int := 22

/-! ## Heap registration -/

/-- Value of `heap.ops`: unset, or `&ion_cma_ops`. -/
inductive heap_ops where
  | NULL
  | ion_cma_ops
deriving DecidableEq

/-- Value of `heap.type`: zero-initialised, or `ION_HEAP_TYPE_DMA`. -/
inductive heap_type where
  | ZERO
  | ION_HEAP_TYPE_DMA
deriving DecidableEq

/-- The fields of `struct ion_heap` the source touches. -/
structure ion_heap where
  ops : heap_ops
  type : heap_type
  name : Nat
  dev : Nat
deriving DecidableEq

/-- The `struct ion_cma_heap`: the generic heap and its reserved region. -/
structure ion_cma_heap where
  heap : ion_heap
  cma : Nat
deriving DecidableEq

/-- Calls made into the ION core, by descriptor index. -/
inductive RegEvent where
  | add_heap (idx : Nat) (ret : Int)
  | remove_heap (idx : Nat)
deriving DecidableEq

/-- The static table `cma_heaps[MAX_CMA_AREAS]` and the calls made so far. -/
structure RegState where
  cma_heaps : List ion_cma_heap
  calls : List RegEvent
deriving DecidableEq

/-- A zero-initialised descriptor. -/
def zero_cma_heap : ion_cma_heap :=
  { heap := { ops := heap_ops.NULL, type := heap_type.ZERO, name := 0, dev := 0 }, cma := 0 }

/-- State at module load: the table is static storage, hence all zero. -/
def initial_state (cfg : Config) : RegState :=
  { cma_heaps := List.replicate cfg.MAX_CMA_AREAS zero_cma_heap, calls := [] }

/-- Modelled from the spec: registration with the generic framework,
`ion_device_add_heap(&cma_heaps[idx].heap)` of the ION core, which the source
only calls.  The call is logged; its return value `ret` is given by the core. -/
def ion_device_add_heap (st : RegState) (idx : Nat) (ret : Int) : RegState :=
  { st with calls := st.calls ++ [RegEvent.add_heap idx ret] }

/-- Modelled from the spec: unregistration with the generic framework,
`ion_device_remove_heap(&cma_heaps[idx].heap)` of the ION core, which the source
only calls.  The call is logged. -/
def ion_device_remove_heap (st : RegState) (idx : Nat) : RegState :=
  { st with calls := st.calls ++ [RegEvent.remove_heap idx] }

/-- The callback `__ion_add_cma_heap(cma, data)` with `*data = cma_nr`.  The result is the
return value, the new state and the new `*data`; `none` stands for an access
outside the table.  `add_ret` is what `ion_device_add_heap` answers if it is
called. -/
def __ion_add_cma_heap (cfg : Config) (cma_get_name : Nat → Nat) (cma : Nat) (add_ret : Int)
    (st : RegState) (cma_nr : Nat) : Option (Int × RegState × Nat) :=
  if cma_nr ≥ cfg.MAX_CMA_AREAS then
    some (-EINVAL, st, cma_nr)
  else
    match st.cma_heaps[cma_nr]? with
    | none => none
    | some cma_heap =>
      let cma_heap1 : ion_cma_heap :=
        { cma_heap with
          heap := { cma_heap.heap with
                    ops := heap_ops.ion_cma_ops
                    type := heap_type.ION_HEAP_TYPE_DMA
                    name := cma_get_name cma } }
      let st1 : RegState := { st with cma_heaps := st.cma_heaps.set cma_nr cma_heap1 }
      let st2 := ion_device_add_heap st1 cma_nr add_ret
      if add_ret ≠ 0 then
        some (0, st2, cma_nr)
      else
        let cma_heap2 : ion_cma_heap := { cma_heap1 with cma := cma }
        some (0, { st2 with cma_heaps := st2.cma_heaps.set cma_nr cma_heap2 }, cma_nr + 1)

/-- Modelled from the spec: `cma_for_each_area(it, data)` of `mm/cma.c`, the
enumeration of the reserved regions, which the source only calls.  It calls `it`
on every reserved region in turn and stops at the first non-zero return value, which it
propagates.  A region is listed with the answer the ION core gives for it. -/
def cma_for_each_area (it : Nat → Int → RegState → Nat → Option (Int × RegState × Nat)) :
    List (Nat × Int) → RegState → Nat → Option (Int × RegState × Nat)
  | [], st, data => some (0, st, data)
  | (cma, add_ret) :: rest, st, data =>
    match it cma add_ret st data with
    | none => none
    | some (ret, st1, data1) =>
      if ret ≠ 0 then some (ret, st1, data1) else cma_for_each_area it rest st1 data1

/-- The loop `for (; nr < MAX_CMA_AREAS && cma_heaps[nr].cma; nr++)
ion_device_remove_heap(&cma_heaps[nr].heap)`.  The first argument is
`MAX_CMA_AREAS - nr`, so the bound test `nr < MAX_CMA_AREAS` is the test for a
successor; the table is read only after that test passed. -/
def remove_heaps : Nat → Nat → RegState → Option RegState
  | 0, _, st => some st
  | k + 1, nr, st =>
    match st.cma_heaps[nr]? with
    | none => none
    | some cma_heap =>
      if cma_heap.cma ≠ 0 then remove_heaps k (nr + 1) (ion_device_remove_heap st nr)
      else some st

/-- The function `ion_cma_heap_init()`: return value and final state. -/
def ion_cma_heap_init (cfg : Config) (cma_get_name : Nat → Nat) (areas : List (Nat × Int))
    (st : RegState) : Option (Int × RegState) :=
  match cma_for_each_area (__ion_add_cma_heap cfg cma_get_name) areas st 0 with
  | none => none
  | some (ret, st1, _) =>
    if ret ≠ 0 then
      match remove_heaps (cfg.MAX_CMA_AREAS - 0) 0 st1 with
      | none => none
      | some st2 => some (ret, st2)
    else some (ret, st1)

/-- The function `ion_cma_heap_exit()`. -/
def ion_cma_heap_exit (cfg : Config) (st : RegState) : Option RegState :=
  remove_heaps (cfg.MAX_CMA_AREAS - 0) 0 st

/-- Any sequence of `__ion_add_cma_heap` calls sharing one counter, whatever
the caller does with the return values. -/
def add_calls (cfg : Config) (cma_get_name : Nat → Nat) :
    List (Nat × Int) → RegState → Nat → Option (RegState × Nat)
  | [], st, nr => some (st, nr)
  | (cma, add_ret) :: rest, st, nr =>
    match __ion_add_cma_heap cfg cma_get_name cma add_ret st nr with
    | none => none
    | some (_, st1, nr1) => add_calls cfg cma_get_name rest st1 nr1

/-- The descriptor indices registered with the ION core after the given calls:
a successful `ion_device_add_heap` adds its index, `ion_device_remove_heap`
takes it away. -/
def registered (calls : List RegEvent) : List Nat :=
  calls.foldl
    (fun acc e =>
      match e with
      | RegEvent.add_heap idx ret => if ret = 0 then acc ++ [idx] else acc
      | RegEvent.remove_heap idx => acc.erase idx)
    []

/-- The table invariant: `MAX_CMA_AREAS` descriptors, of which exactly the
first `nr` hold a region, and exactly those are registered. -/
def TableInv (cfg : Config) (st : RegState) (nr : Nat) : Prop :=
  st.cma_heaps.length = cfg.MAX_CMA_AREAS ∧ nr ≤ cfg.MAX_CMA_AREAS ∧
  (∀ i h, st.cma_heaps[i]? = some h → (h.cma ≠ 0 ↔ i < nr)) ∧
  registered st.calls = List.range nr

/-! ## Buffer operations -/

/-- Number of values of an `unsigned long` (`BITS_PER_LONG = 64`). -/
def ULONG_MOD : Nat := 2 ^ 64

/-- The constant `PAGE_SIZE`, that is `1UL << PAGE_SHIFT`. -/
def PAGE_SIZE (cfg : Config) : Nat := 2 ^ cfg.PAGE_SHIFT

/-- Modelled from the spec: the macro `PAGE_ALIGN` of `linux/mm.h`, which the
source uses but does not define: "round requested length up to the page
granularity".  The value is the mathematical one; storing it in an
`unsigned long` is done where the source does it. -/
def PAGE_ALIGN (cfg : Config) (len : Nat) : Nat :=
  (len + PAGE_SIZE cfg - 1) / PAGE_SIZE cfg * PAGE_SIZE cfg

/-- Modelled from the spec: the allocation record `struct ion_cma_buffer_info`,
whose declaration is not in the source.  The source uses `cpu_addr`, `handle`
and `lock_state` (the latter only as the address stored in
`buffer->priv_virt`, so it carries no data here); the raw page-range pointer
`pages` is a field of the record in the data model of the spec ("the
coherent-DMA virtual address and device handle ..., or the raw page-range
pointer"). -/
structure ion_cma_buffer_info where
  cpu_addr : Nat
  handle : Nat
  pages : Nat
deriving DecidableEq

/-- Modelled from the spec: one `struct scatterlist` entry as
`sg_set_page(sg, page, len, offset)` fills it ("populate the table's single
entry with the physical page, size, and zero offset"). -/
structure scatterlist where
  page : Nat
  length : Nat
  offset : Nat
deriving DecidableEq

/-- A `struct sg_table` with the single entry `sg_alloc_table(table, 1, ...)`
gives it. -/
structure sg_table where
  sgl : scatterlist
deriving DecidableEq

/-- The fields of `struct ion_buffer` the source touches.  `heap` is the
descriptor `to_cma_heap(buffer->heap)`; `priv_virt` and `sg_table` are
pointers, `none` being `NULL`. -/
structure ion_buffer where
  heap : ion_cma_heap
  flags : Nat
  size : Nat
  priv_virt : Option ion_cma_buffer_info
  sg_table : Option sg_table
deriving DecidableEq

/-- Calls made by the buffer operations into other subsystems. -/
inductive Event where
  | kzalloc_info (ok : Bool)
  | cma_alloc (cma count align ret : Nat)
  | cma_release (cma pages count : Nat)
  | dma_alloc_attrs (dev size cpu_addr handle : Nat)
  | dma_free_attrs (dev size cpu_addr handle : Nat)
  | kmalloc_table (ok : Bool)
  | sg_alloc_table (ret : Int)
  | sg_free_table
  | kfree_table
  | kfree_info
  | ion_buffer_prep_noncached
deriving DecidableEq

/-- What lies outside the source file: the free pages of every reserved
region, the free bytes of every device's coherent pool, the bytes of memory
(the byte of page `p` at offset `o` has address `p * PAGE_SIZE + o`), and the
calls made. -/
structure World where
  cma_avail : Nat → Nat
  dma_avail : Nat → Nat
  mem : Nat → Nat
  calls : List Event

/-- Helpers the source calls but does not define, and the answers the other
subsystems give during one `ion_cma_allocate`. -/
structure Env where
  get_order : Nat → Nat
  ion_cma_has_kernel_mapping : ion_cma_heap → Bool
  PageHighMem : Nat → Bool
  kzalloc_info_ok : Bool
  cma_alloc_ret : Nat
  dma_cpu_addr : Nat
  dma_handle : Nat
  dma_page : Nat
  kmalloc_table_ok : Bool
  sg_alloc_table_ret : Int

/-- Append a call to the log. -/
def World.call (w : World) (e : Event) : World :=
  { w with calls := w.calls ++ [e] }

/-- The call carries the given byte size, if it goes to the coherent-DMA
subsystem, or the given page count, if it goes to the reserved region. -/
def Event.carries (size nr_pages : Nat) : Event → Prop
  | Event.cma_alloc _ n _ _ => n = nr_pages
  | Event.cma_release _ _ n => n = nr_pages
  | Event.dma_alloc_attrs _ s _ _ => s = size
  | Event.dma_free_attrs _ s _ _ => s = size
  | _ => True

/-- Modelled from the spec: `cma_alloc(cma, count, align, false)` of
`mm/cma.c`, the acquire operation of the region-reservation interface
("acquire(count, alignment) → page-range | error").  It hands out the range
`ans` chosen by the subsystem and takes `count` pages from the region's
available capacity, or returns `NULL`. -/
def cma_alloc (w : World) (cma count align ans : Nat) : Nat × World :=
  if ans ≠ 0 ∧ count ≤ w.cma_avail cma then
    (ans, { w with cma_avail := Function.update w.cma_avail cma (w.cma_avail cma - count)
                   calls := w.calls ++ [Event.cma_alloc cma count align ans] })
  else
    (0, w.call (Event.cma_alloc cma count align 0))

/-- Modelled from the spec: `cma_release(cma, pages, count)` of `mm/cma.c`, the
release operation of the region-reservation interface
("release(page-range, count)"): `count` pages go back to the region. -/
def cma_release (w : World) (cma pages count : Nat) : World :=
  { w with cma_avail := Function.update w.cma_avail cma (w.cma_avail cma + count)
           calls := w.calls ++ [Event.cma_release cma pages count] }

/-- Modelled from the spec: `dma_alloc_attrs` of the coherent-DMA interface
("alloc(device, size) → (address, handle) | error").  It returns the CPU
address and handle chosen by the subsystem and takes `size` bytes from the
device's pool, or returns `NULL`. -/
def dma_alloc_attrs (w : World) (dev size cpu_addr handle : Nat) : (Nat × Nat) × World :=
  if cpu_addr ≠ 0 ∧ size ≤ w.dma_avail dev then
    ((cpu_addr, handle),
     { w with dma_avail := Function.update w.dma_avail dev (w.dma_avail dev - size)
              calls := w.calls ++ [Event.dma_alloc_attrs dev size cpu_addr handle] })
  else
    ((0, 0), w.call (Event.dma_alloc_attrs dev size 0 0))

/-- Modelled from the spec: `dma_free_attrs` of the coherent-DMA interface
("free(device, size, address, handle)"): `size` bytes go back to the pool. -/
def dma_free_attrs (w : World) (dev size cpu_addr handle : Nat) : World :=
  { w with dma_avail := Function.update w.dma_avail dev (w.dma_avail dev + size)
           calls := w.calls ++ [Event.dma_free_attrs dev size cpu_addr handle] }

/-- The call `memset(addr, 0, len)` on the bytes of memory. -/
def memset (w : World) (addr len : Nat) : World :=
  { w with mem := fun a => if addr ≤ a ∧ a < addr + len then 0 else w.mem a }

/-- Address of the first byte of a page, as `kmap_atomic(page)` and
`page_address(page)` give it. -/
def page_address (cfg : Config) (page : Nat) : Nat := page * PAGE_SIZE cfg

/-- The loop `while (nr_clear_pages > 0)` of `ion_cma_allocate`: map the page,
clear `PAGE_SIZE` bytes, unmap, `page++`, `nr_clear_pages--`. -/
def clear_highmem (cfg : Config) : Nat → Nat → World → World
  | 0, _, w => w
  | nr_clear_pages + 1, page, w =>
    clear_highmem cfg nr_clear_pages (page + 1) (memset w (page_address cfg page) (PAGE_SIZE cfg))

/-- The zeroing step of `ion_cma_allocate`. -/
def zero_pages (cfg : Config) (env : Env) (pages size nr_pages : Nat) (w : World) : World :=
  if env.PageHighMem pages then clear_highmem cfg nr_pages pages w
  else memset w (page_address cfg pages) size

/-- The alignment order: `align = get_order(size)`, then the clamp
`if (align > CONFIG_CMA_ALIGNMENT) align = CONFIG_CMA_ALIGNMENT`. -/
def cma_align (cfg : Config) (env : Env) (size : Nat) : Nat :=
  let align := env.get_order size
  if align > cfg.CONFIG_CMA_ALIGNMENT then cfg.CONFIG_CMA_ALIGNMENT else align

/-- The statement `flags &= ~((unsigned long)ION_FLAG_CACHED)`. -/
def clear_cached (cfg : Config) (flags : Nat) : Nat :=
  flags &&& (ULONG_MOD - 1 - cfg.ION_FLAG_CACHED)

/-- How the acquisition step ends. -/
inductive Acquired where
  | no_record
  | no_memory (info : ion_cma_buffer_info)
  | ok (info : ion_cma_buffer_info) (pages : Nat)
deriving DecidableEq

/-- Modelled from the spec: the statements of `ion_cma_allocate` between the
write of `buffer->flags` and the zeroing, which the source does not contain.
The zeroed allocation record is created; then, if after the flag update a
cached mapping is still requested (it is supported and requested), memory
comes from the coherent-DMA subsystem, which fills `cpu_addr` and `handle`,
and `pages` is the first page of that memory as the subsystem reports it;
otherwise memory comes from the reserved region at the computed alignment and
the record keeps the raw page range. -/
def acquire (cfg : Config) (env : Env) (cma_heap : ion_cma_heap)
    (size nr_pages align flags : Nat) (w : World) : Acquired × World :=
  let w1 := w.call (Event.kzalloc_info env.kzalloc_info_ok)
  if env.kzalloc_info_ok = false then
    (Acquired.no_record, w1)
  else
    let info : ion_cma_buffer_info := { cpu_addr := 0, handle := 0, pages := 0 }
    if flags &&& cfg.ION_FLAG_CACHED ≠ 0 then
      let r := dma_alloc_attrs w1 cma_heap.heap.dev size env.dma_cpu_addr env.dma_handle
      if r.1.1 = 0 then (Acquired.no_memory info, r.2)
      else (Acquired.ok { info with cpu_addr := r.1.1, handle := r.1.2 } env.dma_page, r.2)
    else
      let r := cma_alloc w1 cma_heap.cma nr_pages align env.cma_alloc_ret
      if r.1 = 0 then (Acquired.no_memory info, r.2)
      else (Acquired.ok { info with pages := r.1 } r.1, r.2)

/-- What `ion_cma_allocate` leaves behind: return value, buffer, world. -/
structure Outcome where
  ret : Int
  buffer : ion_buffer
  world : World

/-- Label `free_info`: `kfree(info); return -ENOMEM;`. -/
def free_info (buffer : ion_buffer) (w : World) : Outcome :=
  { ret := -ENOMEM, buffer := buffer, world := w.call Event.kfree_info }

/-- Label `err_alloc`: release through `dma_free_attrs` if `info->cpu_addr`
is set, through `cma_release` otherwise, then fall through to `free_info`.
The device `dev` is `cma_heap->heap.dev`, as in `ion_cma_free`. -/
def err_alloc (cma_heap : ion_cma_heap) (buffer : ion_buffer) (info : ion_cma_buffer_info)
    (pages size nr_pages : Nat) (w : World) : Outcome :=
  if info.cpu_addr ≠ 0 then
    free_info buffer (dma_free_attrs w cma_heap.heap.dev size info.cpu_addr info.handle)
  else
    free_info buffer (cma_release w cma_heap.cma pages nr_pages)

/-- Label `free_table`: `kfree(table)`, then fall through to `err_alloc`. -/
def free_table (cma_heap : ion_cma_heap) (buffer : ion_buffer) (info : ion_cma_buffer_info)
    (pages size nr_pages : Nat) (w : World) : Outcome :=
  err_alloc cma_heap buffer info pages size nr_pages (w.call Event.kfree_table)

/-- Modelled from the spec: attaching the allocation record to the buffer
("attached to the generic buffer object as its private backing state"; "on
success, the buffer object holds ... the allocation-record fields needed to
reverse the operation").  `ion_cma_free` reads `buffer->priv_virt`, but the
source does not contain the assignment. -/
def attach_info (buffer : ion_buffer) (info : ion_cma_buffer_info) : ion_buffer :=
  { buffer with priv_virt := some info }

/-- The function `ion_cma_allocate(heap, buffer, len, flags)` with
`cma_heap = to_cma_heap(heap)`.  The statements follow the source; the
acquisition step and the attachment of the record, which the source lacks, are
`acquire` and `attach_info`. -/
def ion_cma_allocate (cfg : Config) (env : Env) (cma_heap : ion_cma_heap) (buffer : ion_buffer)
    (len flags : Nat) (w : World) : Outcome :=
  let size := PAGE_ALIGN cfg len % ULONG_MOD
  let nr_pages := size >>> cfg.PAGE_SHIFT
  let align := cma_align cfg env size
  let flags1 := if env.ion_cma_has_kernel_mapping cma_heap = false then clear_cached cfg flags
                else flags
  let buffer1 := if env.ion_cma_has_kernel_mapping cma_heap = false then
                   { buffer with flags := flags1 }
                 else buffer
  match acquire cfg env cma_heap size nr_pages align flags1 w with
  | (Acquired.no_record, w1) => { ret := -ENOMEM, buffer := buffer1, world := w1 }
  | (Acquired.no_memory _, w1) => free_info buffer1 w1
  | (Acquired.ok info pages, w1) =>
    let w2 := zero_pages cfg env pages size nr_pages w1
    let w3 := w2.call (Event.kmalloc_table env.kmalloc_table_ok)
    if env.kmalloc_table_ok = false then
      err_alloc cma_heap buffer1 info pages size nr_pages w3
    else
      let w4 := w3.call (Event.sg_alloc_table env.sg_alloc_table_ret)
      if env.sg_alloc_table_ret ≠ 0 then
        free_table cma_heap buffer1 info pages size nr_pages w4
      else
        let table : sg_table := { sgl := { page := pages, length := size, offset := 0 } }
        let buffer2 := attach_info buffer1 info
        let buffer3 := { buffer2 with sg_table := some table }
        { ret := 0, buffer := buffer3, world := w4.call Event.ion_buffer_prep_noncached }

/-- The acquisition step as `ion_cma_allocate` runs it: with the size, page
count and alignment it computed and the flags it has after the update. -/
def allocate_acquire (cfg : Config) (env : Env) (cma_heap : ion_cma_heap) (len flags : Nat)
    (w : World) : Acquired × World :=
  let size := PAGE_ALIGN cfg len % ULONG_MOD
  acquire cfg env cma_heap size (size >>> cfg.PAGE_SHIFT) (cma_align cfg env size)
    (if env.ion_cma_has_kernel_mapping cma_heap = false then clear_cached cfg flags else flags) w

/-- The function `ion_cma_free(buffer)` with
`cma_heap = to_cma_heap(buffer->heap)`; `none` stands for a `NULL`
dereference. -/
def ion_cma_free (cfg : Config) (buffer : ion_buffer) (w : World) : Option World :=
  let cma_heap := buffer.heap
  match buffer.priv_virt, buffer.sg_table with
  | some info, some table =>
    let w1 :=
      if info.cpu_addr ≠ 0 then
        dma_free_attrs w cma_heap.heap.dev (PAGE_ALIGN cfg buffer.size % ULONG_MOD)
          info.cpu_addr info.handle
      else
        cma_release w cma_heap.cma table.sgl.page
          ((PAGE_ALIGN cfg buffer.size % ULONG_MOD) >>> cfg.PAGE_SHIFT)
    some (((w1.call Event.sg_free_table).call Event.kfree_table).call Event.kfree_info)
  | _, _ => none

/-! ## Concrete configurations used to evaluate the model -/

/-- A configuration with 4 KiB pages and a table of two descriptors. -/
def cfg2 : Config :=
  { PAGE_SHIFT := 12, CONFIG_CMA_ALIGNMENT := 8, MAX_CMA_AREAS := 2, ION_FLAG_CACHED := 1 }

/-- A configuration with 4 KiB pages and a table of one descriptor. -/
def cfg1 : Config :=
  { PAGE_SHIFT := 12, CONFIG_CMA_ALIGNMENT := 8, MAX_CMA_AREAS := 1, ION_FLAG_CACHED := 1 }

/-- Number of significant bits of a value below `2 ^ 64`, found by halving at
most 64 times; the example environment uses it for `get_order` with 4 KiB
pages, the number of significant bits of `(size - 1) >> 12`. -/
def order_bits : Nat → Nat → Nat
  | 0, _ => 0
  | fuel + 1, x => if x = 0 then 0 else order_bits fuel (x / 2) + 1

/-- A heap descriptor on region `3` and device `9`. -/
def heap_example : ion_cma_heap :=
  { heap := { ops := heap_ops.ion_cma_ops, type := heap_type.ION_HEAP_TYPE_DMA, name := 3,
              dev := 9 },
    cma := 3 }

/-- A fresh buffer of the given size and flags on `heap_example`. -/
def buffer_example (size flags : Nat) : ion_buffer :=
  { heap := heap_example, flags := flags, size := size, priv_virt := none, sg_table := none }

/-- A world with 1024 free pages per region, 16 MiB per coherent pool, and
memory filled with the byte `0xAA`. -/
def world_example : World :=
  { cma_avail := fun _ => 1024, dma_avail := fun _ => 16777216, mem := fun _ => 170, calls := [] }

/-- Answers of the other subsystems: the record and the memory are granted.
The arguments say whether the heap has a kernel mapping, whether pages are in
high memory, whether `kmalloc` of the table succeeds, and what
`sg_alloc_table` returns. -/
def env_example (mapping highmem kmalloc_ok : Bool) (sg_ret : Int) : Env :=
  { get_order := fun size => order_bits 64 (((size + ULONG_MOD - 1) % ULONG_MOD) >>> 12)
    ion_cma_has_kernel_mapping := fun _ => mapping
    PageHighMem := fun _ => highmem
    kzalloc_info_ok := true
    cma_alloc_ret := 256
    dma_cpu_addr := 61440
    dma_handle := 2097152
    dma_page := 512
    kmalloc_table_ok := kmalloc_ok
    sg_alloc_table_ret := sg_ret }

/-! ## Registration: the table invariant -/

theorem registered_append (a b : List RegEvent) :
    registered (a ++ b) =
      b.foldl
        (fun acc e =>
          match e with
          | RegEvent.add_heap idx ret => if ret = 0 then acc ++ [idx] else acc
          | RegEvent.remove_heap idx => acc.erase idx)
        (registered a) := by
  simp [registered, List.foldl_append]

theorem foldl_erase_range (m k : Nat) (acc : List Nat) :
    (List.map RegEvent.remove_heap (List.range' k m)).foldl
        (fun acc e =>
          match e with
          | RegEvent.add_heap idx ret => if ret = 0 then acc ++ [idx] else acc
          | RegEvent.remove_heap idx => acc.erase idx)
        (List.range' k m ++ acc) = acc := by
  induction m generalizing k with
  | zero => simp
  | succ m ih =>
    simp only [List.range'_succ, List.map_cons, List.foldl_cons, List.cons_append]
    rw [List.erase_cons_head]
    exact ih (k + 1)

theorem tableInv_initial (cfg : Config) : TableInv cfg (initial_state cfg) 0 := by
  refine ⟨by simp [initial_state], Nat.zero_le _, ?_, by simp [initial_state, registered]⟩
  intro i h hi
  simp only [initial_state] at hi
  rw [List.getElem?_replicate] at hi
  split at hi
  · cases hi
    simp [zero_cma_heap]
  · cases hi

theorem tableInv_add (cfg : Config) (cma_get_name : Nat → Nat) (cma : Nat) (add_ret : Int)
    (st : RegState) (nr : Nat) (hinv : TableInv cfg st nr) (hcma : cma ≠ 0) :
    ∃ ret st1 nr1, __ion_add_cma_heap cfg cma_get_name cma add_ret st nr = some (ret, st1, nr1) ∧
      TableInv cfg st1 nr1 ∧ (ret = 0 ∨ ret = -EINVAL) ∧
      (ret = -EINVAL → nr = cfg.MAX_CMA_AREAS ∧ st1 = st ∧ nr1 = nr) ∧
      (∀ i, RegEvent.remove_heap i ∈ st1.calls → RegEvent.remove_heap i ∈ st.calls) := by
  obtain ⟨hlen, hle, htab, hreg⟩ := hinv
  unfold __ion_add_cma_heap
  by_cases hfull : nr ≥ cfg.MAX_CMA_AREAS
  · rw [if_pos hfull]
    exact ⟨-EINVAL, st, nr, rfl, ⟨hlen, hle, htab, hreg⟩, Or.inr rfl,
      fun _ => ⟨le_antisymm hle hfull, rfl, rfl⟩, fun _ h => h⟩
  · rw [if_neg hfull]
    have hlt : nr < st.cma_heaps.length := by omega
    rw [List.getElem?_eq_getElem hlt]
    have hzero : (st.cma_heaps[nr]).cma = 0 := by
      by_contra hne
      exact absurd ((htab nr _ (List.getElem?_eq_getElem hlt)).1 hne) (lt_irrefl nr)
    by_cases hret : add_ret ≠ 0
    · simp only [hret, ne_eq, not_false_eq_true, if_true]
      refine ⟨0, _, nr, rfl, ⟨?_, hle, ?_, ?_⟩, Or.inl rfl, ?_, ?_⟩
      · simp [ion_device_add_heap, hlen]
      · intro i h hi
        simp only [ion_device_add_heap, List.getElem?_set] at hi
        split at hi
        · rename_i heq
          subst heq
          simp only [hlt, if_true, Option.some.injEq] at hi
          subst hi
          simp [hzero]
        · exact htab i h hi
      · simp only [ion_device_add_heap, registered_append, List.foldl_cons, List.foldl_nil]
        have : ¬ add_ret = 0 := hret
        simp [this, hreg]
      · intro h
        exact absurd h (by decide)
      · intro i hi
        simpa [ion_device_add_heap] using hi
    · have hret0 : add_ret = 0 := not_not.mp hret
      subst hret0
      simp only [ne_eq, not_true_eq_false, if_false]
      refine ⟨0, _, nr + 1, rfl, ⟨?_, by omega, ?_, ?_⟩, Or.inl rfl, ?_, ?_⟩
      · simp [ion_device_add_heap, hlen]
      · intro i h hi
        simp only [ion_device_add_heap, List.getElem?_set, List.length_set] at hi
        split at hi
        · rename_i heq
          subst heq
          simp only [hlt, if_true, Option.some.injEq] at hi
          subst hi
          simp [hcma]
        · rename_i hne
          have := htab i h hi
          rw [this]
          omega
      · simp only [ion_device_add_heap, registered_append, List.foldl_cons, List.foldl_nil]
        simp [hreg, List.range_succ]
      · intro h
        exact absurd h (by decide)
      · intro i hi
        simpa [ion_device_add_heap] using hi

theorem remove_heaps_eq (n : Nat) (k nr : Nat) (st : RegState)
    (htab : ∀ i h, st.cma_heaps[i]? = some h → (h.cma ≠ 0 ↔ i < n))
    (h1 : nr ≤ n) (h2 : n ≤ nr + k) (h3 : nr + k ≤ st.cma_heaps.length) :
    remove_heaps k nr st =
      some { st with calls := st.calls ++ List.map RegEvent.remove_heap (List.range' nr (n - nr)) } := by
  induction k generalizing nr st with
  | zero =>
    have : n - nr = 0 := by omega
    simp [remove_heaps, this]
  | succ k ih =>
    have hlt : nr < st.cma_heaps.length := by omega
    unfold remove_heaps
    rw [List.getElem?_eq_getElem hlt]
    have hiff := htab nr _ (List.getElem?_eq_getElem hlt)
    by_cases hn : nr < n
    · have hne : (st.cma_heaps[nr]).cma ≠ 0 := hiff.2 hn
      simp only [hne, ne_eq, not_false_eq_true, if_true]
      rw [ih (nr + 1) (ion_device_remove_heap st nr) htab (by omega) (by omega)
        (by simpa [ion_device_remove_heap] using (by omega : nr + 1 + k ≤ st.cma_heaps.length))]
      have hs : n - nr = (n - (nr + 1)) + 1 := by omega
      rw [hs, List.range'_succ]
      simp [ion_device_remove_heap]
    · have he : (st.cma_heaps[nr]).cma = 0 := by
        by_contra hne
        exact hn (hiff.1 hne)
      have : n - nr = 0 := by omega
      simp [he, this]

theorem remove_heaps_of_inv (cfg : Config) (st : RegState) (nr : Nat) (hinv : TableInv cfg st nr) :
    remove_heaps (cfg.MAX_CMA_AREAS - 0) 0 st =
      some { st with calls := st.calls ++ List.map RegEvent.remove_heap (List.range nr) } := by
  obtain ⟨hlen, hle, htab, _⟩ := hinv
  rw [remove_heaps_eq nr (cfg.MAX_CMA_AREAS - 0) 0 st htab (Nat.zero_le _) (by omega) (by omega)]
  simp [List.range_eq_range']

theorem registered_after_remove (cfg : Config) (st : RegState) (nr : Nat)
    (hinv : TableInv cfg st nr) :
    registered (st.calls ++ List.map RegEvent.remove_heap (List.range nr)) = [] := by
  rw [registered_append, hinv.2.2.2, List.range_eq_range']
  simpa using foldl_erase_range nr 0 []

theorem add_calls_inv (cfg : Config) (cma_get_name : Nat → Nat) (calls : List (Nat × Int))
    (hcma : ∀ c ∈ calls, c.1 ≠ 0) (st : RegState) (nr : Nat) (hinv : TableInv cfg st nr) :
    ∃ st1 nr1, add_calls cfg cma_get_name calls st nr = some (st1, nr1) ∧ TableInv cfg st1 nr1 := by
  induction calls generalizing st nr with
  | nil => exact ⟨st, nr, rfl, hinv⟩
  | cons c rest ih =>
    obtain ⟨cma, add_ret⟩ := c
    obtain ⟨ret, st1, nr1, heq, hinv1, -⟩ :=
      tableInv_add cfg cma_get_name cma add_ret st nr hinv (hcma (cma, add_ret) (by simp))
    simp only [add_calls, heq]
    exact ih (fun c hc => hcma c (by simp [hc])) st1 nr1 hinv1

theorem for_each_area_inv (cfg : Config) (cma_get_name : Nat → Nat) (areas : List (Nat × Int))
    (hcma : ∀ a ∈ areas, a.1 ≠ 0) (st : RegState) (nr : Nat) (hinv : TableInv cfg st nr)
    (hrm : ∀ i, RegEvent.remove_heap i ∉ st.calls) :
    ∃ ret st1 nr1,
      cma_for_each_area (__ion_add_cma_heap cfg cma_get_name) areas st nr = some (ret, st1, nr1) ∧
      TableInv cfg st1 nr1 ∧ (ret = 0 ∨ ret = -EINVAL) ∧
      (ret = -EINVAL → nr1 = cfg.MAX_CMA_AREAS) ∧
      (∀ i, RegEvent.remove_heap i ∉ st1.calls) := by
  induction areas generalizing st nr with
  | nil => exact ⟨0, st, nr, rfl, hinv, Or.inl rfl, fun h => absurd h (by decide), hrm⟩
  | cons a rest ih =>
    obtain ⟨cma, add_ret⟩ := a
    obtain ⟨ret, st1, nr1, heq, hinv1, hret, hfull, hkeep⟩ :=
      tableInv_add cfg cma_get_name cma add_ret st nr hinv (hcma (cma, add_ret) (by simp))
    have hrm1 : ∀ i, RegEvent.remove_heap i ∉ st1.calls := fun i hi => hrm i (hkeep i hi)
    simp only [cma_for_each_area, heq]
    rcases hret with h0 | hE
    · subst h0
      simp only [ne_eq, not_true_eq_false, if_false]
      exact ih (fun c hc => hcma c (by simp [hc])) st1 nr1 hinv1 hrm1
    · have hne : ret ≠ 0 := by rw [hE]; decide
      simp only [hne, ne_eq, not_false_eq_true, if_true]
      obtain ⟨hnr, -, hnr1⟩ := hfull hE
      exact ⟨ret, st1, nr1, rfl, hinv1, Or.inr hE, fun _ => by omega, hrm1⟩

/-! ## Registration: the claims -/

/-- C2, as the code behaves: for non-null regions enumerated from the initial
state, `ion_cma_heap_init` never returns the error of a failed
`ion_device_add_heap`.  It returns `0` without unregistering anything, or
`-EINVAL` when the table was full; in that case the calls before the unwinding
had registered exactly the descriptors `0 .. MAX_CMA_AREAS - 1`, the unwinding
removes them once each in ascending order, and nothing stays registered. -/
theorem init_returns_only_capacity_error (cfg : Config) (cma_get_name : Nat → Nat)
    (areas : List (Nat × Int)) (hcma : ∀ a ∈ areas, a.1 ≠ 0) :
    ∃ ret st, ion_cma_heap_init cfg cma_get_name areas (initial_state cfg) = some (ret, st) ∧
      (ret = 0 ∨ ret = -EINVAL) ∧
      (ret = 0 → ∀ i, RegEvent.remove_heap i ∉ st.calls) ∧
      (ret = -EINVAL →
        registered st.calls = [] ∧
        ∃ before, st.calls =
            before ++ List.map RegEvent.remove_heap (List.range cfg.MAX_CMA_AREAS) ∧
          registered before = List.range cfg.MAX_CMA_AREAS ∧
          ∀ i, RegEvent.remove_heap i ∉ before) := by
  obtain ⟨ret, st1, nr1, heq, hinv, hret, hfull, hrm⟩ :=
    for_each_area_inv cfg cma_get_name areas hcma (initial_state cfg) 0 (tableInv_initial cfg)
      (by simp [initial_state])
  unfold ion_cma_heap_init
  rw [heq]
  rcases hret with h0 | hE
  · subst h0
    refine ⟨0, st1, by simp, Or.inl rfl, fun _ => hrm, fun h => absurd h (by decide)⟩
  · have hne : ret ≠ 0 := by rw [hE]; decide
    have hnr := hfull hE
    subst hnr
    simp only [hne, ne_eq, not_false_eq_true, if_true, remove_heaps_of_inv cfg st1 _ hinv]
    refine ⟨ret, _, rfl, Or.inr hE, fun h => absurd h hne, fun _ => ?_⟩
    exact ⟨registered_after_remove cfg st1 _ hinv, st1.calls, rfl, hinv.2.2.2, hrm⟩

/-- Witness for C2: two regions, the registration of the second fails. -/
theorem init_returns_only_capacity_error_witness :
    (∀ a ∈ [((7 : Nat), (0 : Int)), (8, -12)], a.1 ≠ 0) ∧
    ∃ ret st, ion_cma_heap_init cfg2 id [(7, 0), (8, -12)] (initial_state cfg2) = some (ret, st) ∧
      (ret = 0 ∨ ret = -EINVAL) ∧
      (ret = 0 → ∀ i, RegEvent.remove_heap i ∉ st.calls) ∧
      (ret = -EINVAL →
        registered st.calls = [] ∧
        ∃ before, st.calls =
            before ++ List.map RegEvent.remove_heap (List.range cfg2.MAX_CMA_AREAS) ∧
          registered before = List.range cfg2.MAX_CMA_AREAS ∧
          ∀ i, RegEvent.remove_heap i ∉ before) :=
  ⟨by decide, init_returns_only_capacity_error cfg2 id [(7, 0), (8, -12)] (by decide)⟩

/-- C2 fails as stated: with two regions of which the second is refused with
`-12` by `ion_device_add_heap`, `ion_cma_heap_init` returns `0`, not `-12`, and
descriptor `0` stays registered. -/
theorem init_swallows_add_heap_error :
    (ion_cma_heap_init cfg2 id [(7, 0), (8, -12)] (initial_state cfg2)).map
      (fun r => (r.1, registered r.2.calls)) = some (0, [0]) := by
  decide

/-- C7, as the code behaves: once the counter of registered regions has
reached `MAX_CMA_AREAS`, `__ion_add_cma_heap` returns `-EINVAL` for a further
region and leaves table, call log and counter as they were: no descriptor is
written and `ion_device_add_heap` is not called.  When the enumeration of
non-null regions from the initial state ends with `-EINVAL`, the table holds
`MAX_CMA_AREAS` regions, all registered before the limit was hit. -/
theorem add_cma_heap_full_table (cfg : Config) (cma_get_name : Nat → Nat) (cma : Nat)
    (add_ret : Int) (st : RegState) (cma_nr : Nat) (hfull : cfg.MAX_CMA_AREAS ≤ cma_nr) :
    __ion_add_cma_heap cfg cma_get_name cma add_ret st cma_nr = some (-EINVAL, st, cma_nr) ∧
    ∀ areas : List (Nat × Int), (∀ a ∈ areas, a.1 ≠ 0) →
      ∃ ret st1 nr1,
        cma_for_each_area (__ion_add_cma_heap cfg cma_get_name) areas (initial_state cfg) 0 =
          some (ret, st1, nr1) ∧
        (ret = 0 ∨ ret = -EINVAL) ∧
        (ret = -EINVAL →
          nr1 = cfg.MAX_CMA_AREAS ∧ st1.cma_heaps.length = cfg.MAX_CMA_AREAS ∧
          (∀ (i : Nat) (h : ion_cma_heap), st1.cma_heaps[i]? = some h → h.cma ≠ 0) ∧
          registered st1.calls = List.range cfg.MAX_CMA_AREAS) := by
  constructor
  · unfold __ion_add_cma_heap
    rw [if_pos hfull]
  · intro areas hcma
    obtain ⟨ret, st1, nr1, heq, hinv, hret, hnr, -⟩ :=
      for_each_area_inv cfg cma_get_name areas hcma (initial_state cfg) 0 (tableInv_initial cfg)
        (by simp [initial_state])
    refine ⟨ret, st1, nr1, heq, hret, fun hE => ?_⟩
    have hnr1 := hnr hE
    subst hnr1
    obtain ⟨hlen, -, htab, hreg⟩ := hinv
    refine ⟨rfl, hlen, fun i h hi => ?_, hreg⟩
    have hi' : i < st1.cma_heaps.length := by
      by_contra hge
      rw [List.getElem?_eq_none (by omega)] at hi
      cases hi
    exact (htab i h hi).2 (by omega)

/-- Witness for C7: a table of one descriptor and a counter of one. -/
theorem add_cma_heap_full_table_witness :
    cfg1.MAX_CMA_AREAS ≤ 1 ∧
    __ion_add_cma_heap cfg1 id 8 0 (initial_state cfg1) 1 =
      some (-EINVAL, initial_state cfg1, 1) :=
  ⟨by decide, (add_cma_heap_full_table cfg1 id 8 0 (initial_state cfg1) 1 (by decide)).1⟩

/-- C7 fails as stated: with a table of one descriptor and two regions
enumerated, of which the first is refused by `ion_device_add_heap`, the second
region is in excess of `MAX_CMA_AREAS`, yet no capacity error is returned:
`ion_device_add_heap` is called for it and its descriptor is written. -/
theorem excess_region_registered_after_failure :
    ion_cma_heap_init cfg1 id [(7, -12), (8, 0)] (initial_state cfg1) =
      some (0,
        { cma_heaps :=
            [{ heap := { ops := heap_ops.ion_cma_ops, type := heap_type.ION_HEAP_TYPE_DMA,
                         name := 8, dev := 0 },
               cma := 8 }],
          calls := [RegEvent.add_heap 0 (-12), RegEvent.add_heap 0 0] }) := by
  decide

/-- C10: starting from the zero-initialised table and counter `0`, after any
sequence of `__ion_add_cma_heap` calls with non-null regions the table still
has `MAX_CMA_AREAS` descriptors, those holding a region are exactly the
indices below the counter `nr`, `nr` is at most `MAX_CMA_AREAS`, and
`ion_cma_heap_exit` finishes without reading outside the table, having called
`ion_device_remove_heap` on the indices `0 .. nr - 1`, once each, in ascending
order, and on nothing else. -/
theorem exit_removes_populated_descriptors (cfg : Config) (cma_get_name : Nat → Nat)
    (calls : List (Nat × Int)) (hcma : ∀ c ∈ calls, c.1 ≠ 0) :
    ∃ st nr, add_calls cfg cma_get_name calls (initial_state cfg) 0 = some (st, nr) ∧
      nr ≤ cfg.MAX_CMA_AREAS ∧ st.cma_heaps.length = cfg.MAX_CMA_AREAS ∧
      (∀ i h, st.cma_heaps[i]? = some h → (h.cma ≠ 0 ↔ i < nr)) ∧
      ion_cma_heap_exit cfg st =
        some { st with calls := st.calls ++ List.map RegEvent.remove_heap (List.range nr) } := by
  obtain ⟨st, nr, heq, hinv⟩ :=
    add_calls_inv cfg cma_get_name calls hcma (initial_state cfg) 0 (tableInv_initial cfg)
  exact ⟨st, nr, heq, hinv.2.1, hinv.1, hinv.2.2.1, remove_heaps_of_inv cfg st nr hinv⟩

/-- Witness for C10: four calls on a table of two descriptors. -/
theorem exit_removes_populated_descriptors_witness :
    (∀ c ∈ [((5 : Nat), (0 : Int)), (6, -12), (7, 0), (8, 0)], c.1 ≠ 0) ∧
    ∃ st nr, add_calls cfg2 id [(5, 0), (6, -12), (7, 0), (8, 0)] (initial_state cfg2) 0 =
        some (st, nr) ∧
      nr ≤ cfg2.MAX_CMA_AREAS ∧ st.cma_heaps.length = cfg2.MAX_CMA_AREAS ∧
      (∀ i h, st.cma_heaps[i]? = some h → (h.cma ≠ 0 ↔ i < nr)) ∧
      ion_cma_heap_exit cfg2 st =
        some { st with calls := st.calls ++ List.map RegEvent.remove_heap (List.range nr) } :=
  ⟨by decide, exit_removes_populated_descriptors cfg2 id [(5, 0), (6, -12), (7, 0), (8, 0)] (by decide)⟩

/-! ## Buffer operations: arithmetic and zeroing -/

theorem PAGE_SIZE_pos (cfg : Config) : 0 < PAGE_SIZE cfg := by
  unfold PAGE_SIZE
  exact Nat.pos_pow_of_pos _ (by decide)

theorem alloc_size_dvd (cfg : Config) (len : Nat) :
    PAGE_SIZE cfg ∣ PAGE_ALIGN cfg len % ULONG_MOD := by
  have hdvd : PAGE_SIZE cfg ∣ PAGE_ALIGN cfg len := Nat.dvd_mul_left _ _
  by_cases hk : cfg.PAGE_SHIFT ≤ 64
  · have h2 : PAGE_SIZE cfg ∣ ULONG_MOD := by
      unfold PAGE_SIZE ULONG_MOD
      exact pow_dvd_pow 2 hk
    exact (Nat.dvd_mod_iff h2).2 hdvd
  · have h2 : ULONG_MOD ∣ PAGE_SIZE cfg := by
      unfold PAGE_SIZE ULONG_MOD
      exact pow_dvd_pow 2 (by omega)
    rw [Nat.mod_eq_zero_of_dvd (dvd_trans h2 hdvd)]
    exact dvd_zero _

theorem nr_pages_mul (cfg : Config) (len : Nat) :
    ((PAGE_ALIGN cfg len % ULONG_MOD) >>> cfg.PAGE_SHIFT) * PAGE_SIZE cfg =
      PAGE_ALIGN cfg len % ULONG_MOD := by
  rw [Nat.shiftRight_eq_div_pow]
  exact Nat.div_mul_cancel (alloc_size_dvd cfg len)

theorem page_align_eq_ceil (cfg : Config) (s : Nat) :
    PAGE_ALIGN cfg s = ⌈(s : ℚ) / (PAGE_SIZE cfg : ℚ)⌉₊ * PAGE_SIZE cfg := by
  have hP := PAGE_SIZE_pos cfg
  have hPq : (0 : ℚ) < (PAGE_SIZE cfg : ℚ) := by exact_mod_cast hP
  unfold PAGE_ALIGN
  congr 1
  apply le_antisymm
  · have hc : (s : ℚ) / (PAGE_SIZE cfg : ℚ) ≤ (⌈(s : ℚ) / (PAGE_SIZE cfg : ℚ)⌉₊ : ℚ) :=
      Nat.le_ceil _
    rw [div_le_iff₀ hPq] at hc
    have hc' : s ≤ ⌈(s : ℚ) / (PAGE_SIZE cfg : ℚ)⌉₊ * PAGE_SIZE cfg := by exact_mod_cast hc
    have : (s + PAGE_SIZE cfg - 1) / PAGE_SIZE cfg < ⌈(s : ℚ) / (PAGE_SIZE cfg : ℚ)⌉₊ + 1 := by
      rw [Nat.div_lt_iff_lt_mul hP]
      have : (⌈(s : ℚ) / (PAGE_SIZE cfg : ℚ)⌉₊ + 1) * PAGE_SIZE cfg =
          ⌈(s : ℚ) / (PAGE_SIZE cfg : ℚ)⌉₊ * PAGE_SIZE cfg + PAGE_SIZE cfg := by ring
      omega
    omega
  · rw [Nat.ceil_le, div_le_iff₀ hPq]
    have h1 : s + PAGE_SIZE cfg - 1 < PAGE_SIZE cfg * ((s + PAGE_SIZE cfg - 1) / PAGE_SIZE cfg + 1) :=
      Nat.lt_mul_div_succ _ hP
    have h2 : PAGE_SIZE cfg * ((s + PAGE_SIZE cfg - 1) / PAGE_SIZE cfg + 1) =
        (s + PAGE_SIZE cfg - 1) / PAGE_SIZE cfg * PAGE_SIZE cfg + PAGE_SIZE cfg := by ring
    have h3 : s ≤ (s + PAGE_SIZE cfg - 1) / PAGE_SIZE cfg * PAGE_SIZE cfg := by omega
    exact_mod_cast h3

theorem page_align_bounds (cfg : Config) (s : Nat) :
    s ≤ PAGE_ALIGN cfg s ∧ PAGE_ALIGN cfg s < s + PAGE_SIZE cfg := by
  have hP := PAGE_SIZE_pos cfg
  unfold PAGE_ALIGN
  have h1 : s + PAGE_SIZE cfg - 1 < PAGE_SIZE cfg * ((s + PAGE_SIZE cfg - 1) / PAGE_SIZE cfg + 1) :=
    Nat.lt_mul_div_succ _ hP
  have h2 : PAGE_SIZE cfg * ((s + PAGE_SIZE cfg - 1) / PAGE_SIZE cfg + 1) =
      (s + PAGE_SIZE cfg - 1) / PAGE_SIZE cfg * PAGE_SIZE cfg + PAGE_SIZE cfg := by ring
  have h3 := Nat.div_mul_le_self (s + PAGE_SIZE cfg - 1) (PAGE_SIZE cfg)
  omega

theorem clear_cached_and (cfg : Config) (flags : Nat) :
    clear_cached cfg flags &&& cfg.ION_FLAG_CACHED = 0 := by
  unfold clear_cached
  apply Nat.eq_of_testBit_eq
  intro i
  simp only [Nat.testBit_and, Nat.zero_testBit]
  by_cases hc : cfg.ION_FLAG_CACHED < ULONG_MOD
  · have hsub : ULONG_MOD - 1 - cfg.ION_FLAG_CACHED = 2 ^ 64 - (cfg.ION_FLAG_CACHED + 1) := by
      unfold ULONG_MOD; omega
    rw [hsub, Nat.testBit_two_pow_sub_succ (by simpa [ULONG_MOD] using hc)]
    cases cfg.ION_FLAG_CACHED.testBit i <;> simp
  · have hsub : ULONG_MOD - 1 - cfg.ION_FLAG_CACHED = 0 := by omega
    simp [hsub]

theorem clear_highmem_eq_memset (cfg : Config) (n page : Nat) (w : World) :
    clear_highmem cfg n page w = memset w (page_address cfg page) (n * PAGE_SIZE cfg) := by
  induction n generalizing page w with
  | zero =>
    simp only [clear_highmem, memset, Nat.zero_mul, Nat.add_zero]
    have : (fun a => if page_address cfg page ≤ a ∧ a < page_address cfg page then 0 else w.mem a)
        = w.mem := by
      funext a
      rw [if_neg]
      omega
    rw [this]
  | succ n ih =>
    simp only [clear_highmem, ih]
    simp only [memset, page_address]
    congr 1
    funext a
    have e1 : (page + 1) * PAGE_SIZE cfg = page * PAGE_SIZE cfg + PAGE_SIZE cfg := by ring
    have e2 : (n + 1) * PAGE_SIZE cfg = n * PAGE_SIZE cfg + PAGE_SIZE cfg := by ring
    rw [e1, e2]
    by_cases h1 : page * PAGE_SIZE cfg + PAGE_SIZE cfg ≤ a ∧
        a < page * PAGE_SIZE cfg + PAGE_SIZE cfg + n * PAGE_SIZE cfg
    · rw [if_pos h1, if_pos (by omega)]
    · rw [if_neg h1]
      by_cases h2 : page * PAGE_SIZE cfg ≤ a ∧ a < page * PAGE_SIZE cfg + PAGE_SIZE cfg
      · rw [if_pos h2, if_pos (by omega)]
      · rw [if_neg h2, if_neg (by omega)]

/-! ## Buffer operations: the error labels and the acquisition step -/

theorem err_alloc_ret (cma_heap : ion_cma_heap) (buffer : ion_buffer)
    (info : ion_cma_buffer_info) (pages size nr_pages : Nat) (w : World) :
    (err_alloc cma_heap buffer info pages size nr_pages w).ret = -ENOMEM := by
  unfold err_alloc
  split_ifs <;> rfl

theorem err_alloc_buffer (cma_heap : ion_cma_heap) (buffer : ion_buffer)
    (info : ion_cma_buffer_info) (pages size nr_pages : Nat) (w : World) :
    (err_alloc cma_heap buffer info pages size nr_pages w).buffer = buffer := by
  unfold err_alloc
  split_ifs <;> rfl

theorem err_alloc_world (cma_heap : ion_cma_heap) (buffer : ion_buffer)
    (info : ion_cma_buffer_info) (pages size nr_pages : Nat) (w : World) :
    (err_alloc cma_heap buffer info pages size nr_pages w).world =
      (if info.cpu_addr ≠ 0 then
        dma_free_attrs w cma_heap.heap.dev size info.cpu_addr info.handle
       else cma_release w cma_heap.cma pages nr_pages).call Event.kfree_info := by
  unfold err_alloc
  split_ifs <;> rfl

theorem update_restore (f : Nat → Nat) (c n : Nat) (h : n ≤ f c) :
    Function.update (Function.update f c (f c - n)) c
      (Function.update f c (f c - n) c + n) = f := by
  rw [Function.update_same, Function.update_idem, Nat.sub_add_cancel h, Function.update_eq_self]

theorem acquire_ok (cfg : Config) (env : Env) (cma_heap : ion_cma_heap)
    (size nr_pages align flags : Nat) (w w1 : World) (info : ion_cma_buffer_info) (pages : Nat)
    (hacq : acquire cfg env cma_heap size nr_pages align flags w = (Acquired.ok info pages, w1)) :
    env.kzalloc_info_ok = true ∧
    ((flags &&& cfg.ION_FLAG_CACHED ≠ 0 ∧ info.cpu_addr ≠ 0 ∧ info.pages = 0 ∧
        size ≤ w.dma_avail cma_heap.heap.dev ∧
        w1 = { w with
               dma_avail := Function.update w.dma_avail cma_heap.heap.dev
                 (w.dma_avail cma_heap.heap.dev - size)
               calls := w.calls ++ [Event.kzalloc_info true,
                 Event.dma_alloc_attrs cma_heap.heap.dev size info.cpu_addr info.handle] }) ∨
     (flags &&& cfg.ION_FLAG_CACHED = 0 ∧ info.cpu_addr = 0 ∧ info.pages = pages ∧ pages ≠ 0 ∧
        nr_pages ≤ w.cma_avail cma_heap.cma ∧
        w1 = { w with
               cma_avail := Function.update w.cma_avail cma_heap.cma
                 (w.cma_avail cma_heap.cma - nr_pages)
               calls := w.calls ++ [Event.kzalloc_info true,
                 Event.cma_alloc cma_heap.cma nr_pages align pages] })) := by
  unfold acquire at hacq
  cases hk : env.kzalloc_info_ok
  · simp [hk] at hacq
  · refine ⟨rfl, ?_⟩
    simp only [hk, Bool.true_eq_false, if_false] at hacq
    by_cases hc : flags &&& cfg.ION_FLAG_CACHED ≠ 0
    · left
      rw [if_pos hc] at hacq
      unfold dma_alloc_attrs at hacq
      by_cases hd : env.dma_cpu_addr ≠ 0 ∧ size ≤ (w.call (Event.kzalloc_info true)).dma_avail cma_heap.heap.dev
      · rw [if_pos hd] at hacq
        simp only [hd.1, if_false, Prod.mk.injEq, Acquired.ok.injEq] at hacq
        obtain ⟨⟨hinfo, -⟩, hw⟩ := hacq
        subst hinfo
        refine ⟨hc, hd.1, rfl, hd.2, ?_⟩
        rw [← hw]
        simp [World.call]
      · rw [if_neg hd] at hacq
        simp at hacq
    · right
      rw [if_neg hc] at hacq
      unfold cma_alloc at hacq
      by_cases hd : env.cma_alloc_ret ≠ 0 ∧ nr_pages ≤ (w.call (Event.kzalloc_info true)).cma_avail cma_heap.cma
      · rw [if_pos hd] at hacq
        simp only [hd.1, if_false, Prod.mk.injEq, Acquired.ok.injEq] at hacq
        obtain ⟨⟨hinfo, hp⟩, hw⟩ := hacq
        subst hinfo
        subst hp
        refine ⟨not_not.mp hc, rfl, rfl, hd.1, hd.2, ?_⟩
        rw [← hw]
        simp [World.call]
      · rw [if_neg hd] at hacq
        simp at hacq

theorem allocate_eq_of_acquired (cfg : Config) (env : Env) (cma_heap : ion_cma_heap)
    (buffer : ion_buffer) (len flags : Nat) (w w1 : World) (info : ion_cma_buffer_info)
    (pages : Nat)
    (hacq : allocate_acquire cfg env cma_heap len flags w = (Acquired.ok info pages, w1)) :
    ion_cma_allocate cfg env cma_heap buffer len flags w =
      (let size := PAGE_ALIGN cfg len % ULONG_MOD
       let nr_pages := size >>> cfg.PAGE_SHIFT
       let buffer1 := if env.ion_cma_has_kernel_mapping cma_heap = false then
                        { buffer with flags := clear_cached cfg flags }
                      else buffer
       let w3 := (zero_pages cfg env pages size nr_pages w1).call
                   (Event.kmalloc_table env.kmalloc_table_ok)
       if env.kmalloc_table_ok = false then
         err_alloc cma_heap buffer1 info pages size nr_pages w3
       else if env.sg_alloc_table_ret ≠ 0 then
         free_table cma_heap buffer1 info pages size nr_pages
           (w3.call (Event.sg_alloc_table env.sg_alloc_table_ret))
       else
         { ret := 0
           buffer := { attach_info buffer1 info with
                       sg_table := some { sgl := { page := pages, length := size, offset := 0 } } }
           world := (w3.call (Event.sg_alloc_table env.sg_alloc_table_ret)).call
                      Event.ion_buffer_prep_noncached }) := by
  unfold allocate_acquire at hacq
  unfold ion_cma_allocate
  simp only [] at hacq ⊢
  rw [hacq]
  cases hm : env.ion_cma_has_kernel_mapping cma_heap <;> simp

theorem allocate_ret_zero_acquired (cfg : Config) (env : Env) (cma_heap : ion_cma_heap)
    (buffer : ion_buffer) (len flags : Nat) (w : World)
    (hret : (ion_cma_allocate cfg env cma_heap buffer len flags w).ret = 0) :
    ∃ info pages w1,
      allocate_acquire cfg env cma_heap len flags w = (Acquired.ok info pages, w1) ∧
      env.kmalloc_table_ok = true ∧ env.sg_alloc_table_ret = 0 := by
  rcases hacq : allocate_acquire cfg env cma_heap len flags w with ⟨a, w1⟩
  cases a with
  | no_record =>
    exfalso
    unfold allocate_acquire at hacq
    unfold ion_cma_allocate at hret
    simp only [] at hacq hret
    rw [hacq] at hret
    simp [free_info, ENOMEM] at hret
  | no_memory info =>
    exfalso
    unfold allocate_acquire at hacq
    unfold ion_cma_allocate at hret
    simp only [] at hacq hret
    rw [hacq] at hret
    simp [free_info, ENOMEM] at hret
  | ok info pages =>
    refine ⟨info, pages, w1, rfl, ?_⟩
    rw [allocate_eq_of_acquired cfg env cma_heap buffer len flags w w1 info pages hacq] at hret
    simp only [] at hret
    cases hk : env.kmalloc_table_ok
    · rw [if_pos hk, err_alloc_ret] at hret
      exact absurd hret (by decide)
    · refine ⟨rfl, ?_⟩
      by_contra hs
      rw [if_neg (by simp [hk]), if_pos hs] at hret
      unfold free_table at hret
      rw [err_alloc_ret] at hret
      exact absurd hret (by decide)

theorem allocate_success (cfg : Config) (env : Env) (cma_heap : ion_cma_heap)
    (buffer : ion_buffer) (len flags : Nat) (w : World)
    (hret : (ion_cma_allocate cfg env cma_heap buffer len flags w).ret = 0) :
    ∃ info pages w1,
      allocate_acquire cfg env cma_heap len flags w = (Acquired.ok info pages, w1) ∧
      (ion_cma_allocate cfg env cma_heap buffer len flags w).buffer =
        { heap := buffer.heap
          flags := if env.ion_cma_has_kernel_mapping cma_heap = false then clear_cached cfg flags
                   else buffer.flags
          size := buffer.size
          priv_virt := some info
          sg_table := some { sgl := { page := pages, length := PAGE_ALIGN cfg len % ULONG_MOD,
                                      offset := 0 } } } ∧
      (ion_cma_allocate cfg env cma_heap buffer len flags w).world =
        (((zero_pages cfg env pages (PAGE_ALIGN cfg len % ULONG_MOD)
              ((PAGE_ALIGN cfg len % ULONG_MOD) >>> cfg.PAGE_SHIFT) w1).call
            (Event.kmalloc_table true)).call (Event.sg_alloc_table 0)).call
          Event.ion_buffer_prep_noncached := by
  obtain ⟨info, pages, w1, hacq, hk, hs⟩ :=
    allocate_ret_zero_acquired cfg env cma_heap buffer len flags w hret
  refine ⟨info, pages, w1, hacq, ?_⟩
  rw [allocate_eq_of_acquired cfg env cma_heap buffer len flags w w1 info pages hacq]
  simp only [hk, hs, Bool.true_eq_false, if_false, ne_eq, not_true_eq_false]
  cases hm : env.ion_cma_has_kernel_mapping cma_heap <;> simp [attach_info]

theorem zero_pages_eq_memset (cfg : Config) (env : Env) (pages len : Nat) (w : World) :
    zero_pages cfg env pages (PAGE_ALIGN cfg len % ULONG_MOD)
        ((PAGE_ALIGN cfg len % ULONG_MOD) >>> cfg.PAGE_SHIFT) w =
      memset w (page_address cfg pages) (PAGE_ALIGN cfg len % ULONG_MOD) := by
  unfold zero_pages
  split_ifs
  · rw [clear_highmem_eq_memset, nr_pages_mul]
  · rfl


/-! ## Buffer operations: the claims -/

/-- C1, as the code behaves: if `ion_cma_allocate` fails, it returns `-ENOMEM`
and the buffer is as before except for `flags`: when the heap has a kernel
mapping the buffer is unchanged, otherwise `buffer->flags` holds
`flags & ~ION_FLAG_CACHED`; `buffer->sg_table` is unchanged either way. -/
theorem allocate_failure_leaves_buffer (cfg : Config) (env : Env) (cma_heap : ion_cma_heap)
    (buffer : ion_buffer) (len flags : Nat) (w : World)
    (hfail : (ion_cma_allocate cfg env cma_heap buffer len flags w).ret ≠ 0) :
    (ion_cma_allocate cfg env cma_heap buffer len flags w).ret = -ENOMEM ∧
    (ion_cma_allocate cfg env cma_heap buffer len flags w).buffer =
      (if env.ion_cma_has_kernel_mapping cma_heap = false then
        { buffer with flags := clear_cached cfg flags }
       else buffer) ∧
    (ion_cma_allocate cfg env cma_heap buffer len flags w).buffer.sg_table = buffer.sg_table := by
  revert hfail
  unfold ion_cma_allocate
  cases hm : env.ion_cma_has_kernel_mapping cma_heap <;>
    simp only [Bool.false_eq_true, if_true, if_false] <;>
    split <;> first
      | (intro _; exact ⟨rfl, rfl, rfl⟩)
      | (split_ifs <;>
          simp [free_table, err_alloc_ret, err_alloc_buffer])

/-- Witness for C1: the table structure cannot be allocated. -/
theorem allocate_failure_leaves_buffer_witness :
    (ion_cma_allocate cfg2 (env_example true false false 0) heap_example (buffer_example 4096 1)
        4096 1 world_example).ret ≠ 0 ∧
    (ion_cma_allocate cfg2 (env_example true false false 0) heap_example (buffer_example 4096 1)
        4096 1 world_example).ret = -ENOMEM ∧
    (ion_cma_allocate cfg2 (env_example true false false 0) heap_example (buffer_example 4096 1)
        4096 1 world_example).buffer =
      (if (env_example true false false 0).ion_cma_has_kernel_mapping heap_example = false then
        { buffer_example 4096 1 with flags := clear_cached cfg2 1 }
       else buffer_example 4096 1) ∧
    (ion_cma_allocate cfg2 (env_example true false false 0) heap_example (buffer_example 4096 1)
        4096 1 world_example).buffer.sg_table = (buffer_example 4096 1).sg_table :=
  ⟨by decide,
    allocate_failure_leaves_buffer cfg2 (env_example true false false 0) heap_example
      (buffer_example 4096 1) 4096 1 world_example (by decide)⟩

/-- C1 fails as stated: on a heap without kernel mapping, a request with
`ION_FLAG_CACHED` whose table structure cannot be allocated returns `-ENOMEM`
and leaves `buffer->flags` at `0` where it was `1`. -/
theorem allocate_failure_changes_flags :
    (ion_cma_allocate cfg2 (env_example false false false 0) heap_example (buffer_example 4096 1)
        4096 1 world_example).ret = -ENOMEM ∧
    (ion_cma_allocate cfg2 (env_example false false false 0) heap_example (buffer_example 4096 1)
        4096 1 world_example).buffer.flags = 0 ∧
    (buffer_example 4096 1).flags = 1 := by
  decide

/-- C5: when memory was acquired and then the allocation of the table structure
or its population fails, `ion_cma_allocate` returns `-ENOMEM`, both pools
have their capacity of before the call, and the calls made are: the
record allocation, the acquisition, `kmalloc` of the table, then
`sg_alloc_table` and `kfree(table)` exactly when the table had been
allocated, then one release through the subsystem the memory came from with
the size or page count of the acquisition, then `kfree(info)`. -/
theorem table_failure_unwinds (cfg : Config) (env : Env) (cma_heap : ion_cma_heap)
    (buffer : ion_buffer) (len flags : Nat) (w : World) (info : ion_cma_buffer_info)
    (pages : Nat)
    (hacq : (allocate_acquire cfg env cma_heap len flags w).1 = Acquired.ok info pages)
    (hfail : env.kmalloc_table_ok = false ∨ env.sg_alloc_table_ret ≠ 0) :
    (ion_cma_allocate cfg env cma_heap buffer len flags w).ret = -ENOMEM ∧
    (ion_cma_allocate cfg env cma_heap buffer len flags w).world.cma_avail = w.cma_avail ∧
    (ion_cma_allocate cfg env cma_heap buffer len flags w).world.dma_avail = w.dma_avail ∧
    (ion_cma_allocate cfg env cma_heap buffer len flags w).world.calls =
      w.calls ++
        [Event.kzalloc_info true,
         if info.cpu_addr ≠ 0 then
           Event.dma_alloc_attrs cma_heap.heap.dev (PAGE_ALIGN cfg len % ULONG_MOD)
             info.cpu_addr info.handle
         else
           Event.cma_alloc cma_heap.cma ((PAGE_ALIGN cfg len % ULONG_MOD) >>> cfg.PAGE_SHIFT)
             (cma_align cfg env (PAGE_ALIGN cfg len % ULONG_MOD)) pages,
         Event.kmalloc_table env.kmalloc_table_ok] ++
        (if env.kmalloc_table_ok = false then []
         else [Event.sg_alloc_table env.sg_alloc_table_ret, Event.kfree_table]) ++
        [if info.cpu_addr ≠ 0 then
           Event.dma_free_attrs cma_heap.heap.dev (PAGE_ALIGN cfg len % ULONG_MOD)
             info.cpu_addr info.handle
         else
           Event.cma_release cma_heap.cma pages ((PAGE_ALIGN cfg len % ULONG_MOD) >>> cfg.PAGE_SHIFT),
         Event.kfree_info] := by
  obtain ⟨w1, hacq⟩ : ∃ w1, allocate_acquire cfg env cma_heap len flags w =
      (Acquired.ok info pages, w1) := ⟨_, Prod.ext hacq rfl⟩
  rw [allocate_eq_of_acquired cfg env cma_heap buffer len flags w w1 info pages hacq]
  unfold allocate_acquire at hacq
  obtain ⟨-, hcase⟩ := acquire_ok cfg env cma_heap _ _ _ _ w w1 info pages hacq
  simp only [zero_pages_eq_memset]
  rcases hcase with ⟨-, hcpu, -, hcap, hw1⟩ | ⟨-, hcpu, -, -, hcap, hw1⟩
  · subst hw1
    have hcap2 := update_restore w.dma_avail cma_heap.heap.dev _ hcap
    cases hk : env.kmalloc_table_ok
    · simp only [if_true, err_alloc_ret, err_alloc_world, hcpu, ne_eq, not_false_eq_true]
      simp only [World.call, dma_free_attrs, memset]
      exact ⟨trivial, trivial, hcap2, by simp⟩
    · have hs : env.sg_alloc_table_ret ≠ 0 := by
        rcases hfail with h | h
        · rw [hk] at h; cases h
        · exact h
      simp only [Bool.true_eq_false, if_false, hs, ne_eq, not_false_eq_true, if_true, free_table,
        err_alloc_ret, err_alloc_world, hcpu]
      simp only [World.call, dma_free_attrs, memset]
      exact ⟨trivial, trivial, hcap2, by simp⟩
  · subst hw1
    have hcap2 := update_restore w.cma_avail cma_heap.cma _ hcap
    cases hk : env.kmalloc_table_ok
    · simp only [if_true, err_alloc_ret, err_alloc_world, hcpu, ne_eq, not_true_eq_false,
        if_false]
      simp only [World.call, cma_release, memset]
      exact ⟨trivial, hcap2, trivial, by simp⟩
    · have hs : env.sg_alloc_table_ret ≠ 0 := by
        rcases hfail with h | h
        · rw [hk] at h; cases h
        · exact h
      simp only [Bool.true_eq_false, if_false, hs, ne_eq, not_false_eq_true, if_true, free_table,
        err_alloc_ret, err_alloc_world, hcpu, not_true_eq_false]
      simp only [World.call, cma_release, memset]
      exact ⟨trivial, hcap2, trivial, by simp⟩

/-- Witness for C5: a region allocation whose table population fails. -/
theorem table_failure_unwinds_witness :
    (allocate_acquire cfg2 (env_example false false true (-12)) heap_example 4096 0
        world_example).1 = Acquired.ok { cpu_addr := 0, handle := 0, pages := 256 } 256 ∧
    ((env_example false false true (-12)).kmalloc_table_ok = false ∨
      (env_example false false true (-12)).sg_alloc_table_ret ≠ 0) ∧
    (ion_cma_allocate cfg2 (env_example false false true (-12)) heap_example
        (buffer_example 4096 0) 4096 0 world_example).world.calls =
      [Event.kzalloc_info true, Event.cma_alloc 3 1 0 256, Event.kmalloc_table true,
       Event.sg_alloc_table (-12), Event.kfree_table, Event.cma_release 3 256 1,
       Event.kfree_info] :=
  ⟨by decide, by decide,
    (table_failure_unwinds cfg2 (env_example false false true (-12)) heap_example
      (buffer_example 4096 0) 4096 0 world_example { cpu_addr := 0, handle := 0, pages := 256 }
      256 (by decide) (by decide)).2.2.2⟩


/-- C4: a successful `ion_cma_allocate` followed by one `ion_cma_free` on the
same buffer (whose recorded size is the requested length and whose heap is the
one allocated from) completes, leaves the reserved region and the coherent
pool with the capacity they had before the allocation, and the calls made are
one acquisition and one release through the same subsystem with the same size
or page count. -/
theorem allocate_free_round_trip (cfg : Config) (env : Env) (cma_heap : ion_cma_heap)
    (buffer : ion_buffer) (len flags : Nat) (w : World)
    (hret : (ion_cma_allocate cfg env cma_heap buffer len flags w).ret = 0)
    (hsize : buffer.size = len) (hheap : buffer.heap = cma_heap) :
    ∃ w2 info table,
      (ion_cma_allocate cfg env cma_heap buffer len flags w).buffer.priv_virt = some info ∧
      (ion_cma_allocate cfg env cma_heap buffer len flags w).buffer.sg_table = some table ∧
      ion_cma_free cfg (ion_cma_allocate cfg env cma_heap buffer len flags w).buffer
        (ion_cma_allocate cfg env cma_heap buffer len flags w).world = some w2 ∧
      w2.cma_avail = w.cma_avail ∧ w2.dma_avail = w.dma_avail ∧
      w2.calls =
        w.calls ++
          [Event.kzalloc_info true,
           if info.cpu_addr ≠ 0 then
             Event.dma_alloc_attrs cma_heap.heap.dev (PAGE_ALIGN cfg len % ULONG_MOD)
               info.cpu_addr info.handle
           else
             Event.cma_alloc cma_heap.cma ((PAGE_ALIGN cfg len % ULONG_MOD) >>> cfg.PAGE_SHIFT)
               (cma_align cfg env (PAGE_ALIGN cfg len % ULONG_MOD)) table.sgl.page,
           Event.kmalloc_table true, Event.sg_alloc_table 0, Event.ion_buffer_prep_noncached,
           if info.cpu_addr ≠ 0 then
             Event.dma_free_attrs cma_heap.heap.dev (PAGE_ALIGN cfg len % ULONG_MOD)
               info.cpu_addr info.handle
           else
             Event.cma_release cma_heap.cma table.sgl.page
               ((PAGE_ALIGN cfg len % ULONG_MOD) >>> cfg.PAGE_SHIFT),
           Event.sg_free_table, Event.kfree_table, Event.kfree_info] := by
  obtain ⟨info, pages, w1, hacq, hbuf, hworld⟩ :=
    allocate_success cfg env cma_heap buffer len flags w hret
  unfold allocate_acquire at hacq
  obtain ⟨-, hcase⟩ := acquire_ok cfg env cma_heap _ _ _ _ w w1 info pages hacq
  rw [hbuf, hworld, zero_pages_eq_memset]
  subst hsize
  subst hheap
  unfold ion_cma_free
  rcases hcase with ⟨-, hcpu, -, hcap, hw1⟩ | ⟨-, hcpu, -, -, hcap, hw1⟩
  · subst hw1
    have hcap2 := update_restore w.dma_avail buffer.heap.heap.dev _ hcap
    simp only [hcpu, ne_eq, not_false_eq_true, if_true]
    refine ⟨_, info, _, rfl, rfl, rfl, ?_⟩
    simp only [World.call, dma_free_attrs, memset]
    exact ⟨trivial, hcap2, by simp [hcpu]⟩
  · subst hw1
    have hcap2 := update_restore w.cma_avail buffer.heap.cma _ hcap
    simp only [hcpu, ne_eq, not_true_eq_false, if_false]
    refine ⟨_, info, _, rfl, rfl, rfl, ?_⟩
    simp only [World.call, cma_release, memset]
    exact ⟨hcap2, trivial, by simp [hcpu]⟩

/-- Witness for C4: a cached request on a heap with a kernel mapping, served
by the coherent pool and freed again. -/
theorem allocate_free_round_trip_witness :
    (ion_cma_allocate cfg2 (env_example true false true 0) heap_example (buffer_example 5000 1)
        5000 1 world_example).ret = 0 ∧
    (buffer_example 5000 1).size = 5000 ∧ (buffer_example 5000 1).heap = heap_example ∧
    ∃ w2,
      ion_cma_free cfg2
        (ion_cma_allocate cfg2 (env_example true false true 0) heap_example
          (buffer_example 5000 1) 5000 1 world_example).buffer
        (ion_cma_allocate cfg2 (env_example true false true 0) heap_example
          (buffer_example 5000 1) 5000 1 world_example).world = some w2 ∧
      w2.cma_avail = world_example.cma_avail ∧ w2.dma_avail = world_example.dma_avail :=
  ⟨by decide, rfl, rfl,
    (allocate_free_round_trip cfg2 (env_example true false true 0) heap_example
      (buffer_example 5000 1) 5000 1 world_example (by decide) rfl rfl).elim
      (fun w2 h => h.elim (fun _ h => h.elim (fun _ h => ⟨w2, h.2.2.1, h.2.2.2.1, h.2.2.2.2.1⟩)))⟩

/-- C6: after a successful `ion_cma_allocate` the allocation record attached to
the buffer has exactly one of the coherent-DMA address and the raw page range
set; the coherent-DMA address is set exactly when the heap has a kernel
mapping and the request carries `ION_FLAG_CACHED`; `ion_cma_free` releases
through `dma_free_attrs` if `info->cpu_addr` is set and through `cma_release`
otherwise, and so does the error path of `ion_cma_allocate`. -/
theorem record_discriminant (cfg : Config) (env : Env) (cma_heap : ion_cma_heap)
    (buffer : ion_buffer) (len flags : Nat) (w : World)
    (hret : (ion_cma_allocate cfg env cma_heap buffer len flags w).ret = 0) :
    ∃ info table,
      (ion_cma_allocate cfg env cma_heap buffer len flags w).buffer.priv_virt = some info ∧
      (ion_cma_allocate cfg env cma_heap buffer len flags w).buffer.sg_table = some table ∧
      ((info.cpu_addr ≠ 0 ∧ info.pages = 0) ∨ (info.cpu_addr = 0 ∧ info.pages ≠ 0)) ∧
      (info.cpu_addr ≠ 0 ↔
        (env.ion_cma_has_kernel_mapping cma_heap = true ∧ flags &&& cfg.ION_FLAG_CACHED ≠ 0)) ∧
      (∃ w2,
        ion_cma_free cfg (ion_cma_allocate cfg env cma_heap buffer len flags w).buffer
          (ion_cma_allocate cfg env cma_heap buffer len flags w).world = some w2 ∧
        w2.calls =
          (ion_cma_allocate cfg env cma_heap buffer len flags w).world.calls ++
            [if info.cpu_addr ≠ 0 then
               Event.dma_free_attrs buffer.heap.heap.dev (PAGE_ALIGN cfg buffer.size % ULONG_MOD)
                 info.cpu_addr info.handle
             else
               Event.cma_release buffer.heap.cma table.sgl.page
                 ((PAGE_ALIGN cfg buffer.size % ULONG_MOD) >>> cfg.PAGE_SHIFT),
             Event.sg_free_table, Event.kfree_table, Event.kfree_info]) ∧
      (∀ (b0 : ion_buffer) (pages size nr_pages : Nat) (w0 : World),
        (err_alloc cma_heap b0 info pages size nr_pages w0).world.calls =
          w0.calls ++
            [if info.cpu_addr ≠ 0 then
               Event.dma_free_attrs cma_heap.heap.dev size info.cpu_addr info.handle
             else Event.cma_release cma_heap.cma pages nr_pages,
             Event.kfree_info]) := by
  obtain ⟨info, pages, w1, hacq, hbuf, hworld⟩ :=
    allocate_success cfg env cma_heap buffer len flags w hret
  unfold allocate_acquire at hacq
  obtain ⟨-, hcase⟩ := acquire_ok cfg env cma_heap _ _ _ _ w w1 info pages hacq
  rw [hbuf, hworld]
  refine ⟨info, _, rfl, rfl, ?_, ?_, ?_, ?_⟩
  · rcases hcase with ⟨-, hcpu, hpg, -⟩ | ⟨-, hcpu, hpg, hne, -⟩
    · exact Or.inl ⟨hcpu, hpg⟩
    · exact Or.inr ⟨hcpu, by rw [hpg]; exact hne⟩
  · cases hm : env.ion_cma_has_kernel_mapping cma_heap
    · rw [hm] at hcase
      simp only [if_true, clear_cached_and, ne_eq, not_true_eq_false, false_and, false_or]
        at hcase
      simp [hcase.2.1]
    · rw [hm] at hcase
      simp only [Bool.true_eq_false, if_false] at hcase
      rcases hcase with ⟨hc, hcpu, -⟩ | ⟨hc, hcpu, -⟩
      · simp [hc, hcpu]
      · simp [hc, hcpu]
  · unfold ion_cma_free
    simp only []
    refine ⟨_, rfl, ?_⟩
    by_cases hcpu : info.cpu_addr ≠ 0
    · simp [hcpu, World.call, dma_free_attrs]
    · simp [hcpu, World.call, cma_release]
  · intro b0 pg sz n w0
    rw [err_alloc_world]
    by_cases hcpu : info.cpu_addr ≠ 0
    · simp [hcpu, World.call, dma_free_attrs]
    · simp [hcpu, World.call, cma_release]

/-- Witness for C6: an uncached request on a heap with a kernel mapping. -/
theorem record_discriminant_witness :
    (ion_cma_allocate cfg2 (env_example true false true 0) heap_example (buffer_example 5000 0)
        5000 0 world_example).ret = 0 ∧
    ∃ info,
      (ion_cma_allocate cfg2 (env_example true false true 0) heap_example
        (buffer_example 5000 0) 5000 0 world_example).buffer.priv_virt = some info ∧
      ((info.cpu_addr ≠ 0 ∧ info.pages = 0) ∨ (info.cpu_addr = 0 ∧ info.pages ≠ 0)) :=
  ⟨by decide,
    (record_discriminant cfg2 (env_example true false true 0) heap_example
      (buffer_example 5000 0) 5000 0 world_example (by decide)).elim
      (fun info h => h.elim (fun _ h => ⟨info, h.1, h.2.2.1⟩))⟩

/-- C8: after a successful `ion_cma_allocate` every byte of the region the
table entry describes (`size` bytes from the first byte of `pages`) is zero,
whichever zeroing path ran; the page count times `PAGE_SIZE` is `size`; the
high-memory loop run on any `n` pages clears exactly the `n * PAGE_SIZE` bytes
from the first page on, as one `memset` of that length does; and the zeroing
step of the call equals the single direct `memset` of `size` bytes. -/
theorem allocated_region_zeroed (cfg : Config) (env : Env) (cma_heap : ion_cma_heap)
    (buffer : ion_buffer) (len flags : Nat) (w : World)
    (hret : (ion_cma_allocate cfg env cma_heap buffer len flags w).ret = 0) :
    ∃ table,
      (ion_cma_allocate cfg env cma_heap buffer len flags w).buffer.sg_table = some table ∧
      (∀ a, page_address cfg table.sgl.page ≤ a →
        a < page_address cfg table.sgl.page + PAGE_ALIGN cfg len % ULONG_MOD →
        (ion_cma_allocate cfg env cma_heap buffer len flags w).world.mem a = 0) ∧
      ((PAGE_ALIGN cfg len % ULONG_MOD) >>> cfg.PAGE_SHIFT) * PAGE_SIZE cfg =
        PAGE_ALIGN cfg len % ULONG_MOD ∧
      (∀ (n page : Nat) (w0 : World),
        clear_highmem cfg n page w0 = memset w0 (page_address cfg page) (n * PAGE_SIZE cfg)) ∧
      (∀ w0 : World,
        zero_pages cfg env table.sgl.page (PAGE_ALIGN cfg len % ULONG_MOD)
            ((PAGE_ALIGN cfg len % ULONG_MOD) >>> cfg.PAGE_SHIFT) w0 =
          memset w0 (page_address cfg table.sgl.page) (PAGE_ALIGN cfg len % ULONG_MOD)) := by
  obtain ⟨info, pages, w1, -, hbuf, hworld⟩ :=
    allocate_success cfg env cma_heap buffer len flags w hret
  rw [hbuf, hworld, zero_pages_eq_memset]
  refine ⟨_, rfl, ?_, nr_pages_mul cfg len, clear_highmem_eq_memset cfg,
    fun w0 => zero_pages_eq_memset cfg env _ len w0⟩
  intro a h1 h2
  simp only [World.call, memset]
  rw [if_pos ⟨h1, h2⟩]

/-- Witness for C8: a two-page region in high memory. -/
theorem allocated_region_zeroed_witness :
    (ion_cma_allocate cfg2 (env_example false true true 0) heap_example (buffer_example 5000 0)
        5000 0 world_example).ret = 0 ∧
    ∃ table,
      (ion_cma_allocate cfg2 (env_example false true true 0) heap_example
        (buffer_example 5000 0) 5000 0 world_example).buffer.sg_table = some table ∧
      (∀ a, page_address cfg2 table.sgl.page ≤ a →
        a < page_address cfg2 table.sgl.page + PAGE_ALIGN cfg2 5000 % ULONG_MOD →
        (ion_cma_allocate cfg2 (env_example false true true 0) heap_example
          (buffer_example 5000 0) 5000 0 world_example).world.mem a = 0) :=
  ⟨by decide,
    (allocated_region_zeroed cfg2 (env_example false true true 0) heap_example
      (buffer_example 5000 0) 5000 0 world_example (by decide)).elim
      (fun table h => ⟨table, h.1, h.2.1⟩)⟩


theorem cma_align_eq_min (cfg : Config) (env : Env) (size : Nat) :
    cma_align cfg env size = min (env.get_order size) cfg.CONFIG_CMA_ALIGNMENT := by
  unfold cma_align
  simp only []
  split_ifs with h
  · exact (min_eq_right (le_of_lt h)).symm
  · exact (min_eq_left (not_lt.mp h)).symm

theorem acquire_calls (cfg : Config) (env : Env) (cma_heap : ion_cma_heap)
    (size nr_pages align flags : Nat) (w : World) :
    ∃ evs, (acquire cfg env cma_heap size nr_pages align flags w).2.calls = w.calls ++ evs ∧
      (∀ c n a p, Event.cma_alloc c n a p ∈ evs → c = cma_heap.cma ∧ n = nr_pages ∧ a = align) ∧
      (env.kzalloc_info_ok = true → flags &&& cfg.ION_FLAG_CACHED = 0 →
        ∃ p, Event.cma_alloc cma_heap.cma nr_pages align p ∈ evs) ∧
      (∀ e ∈ evs, Event.carries size nr_pages e) := by
  unfold acquire
  cases hk : env.kzalloc_info_ok
  · exact ⟨[Event.kzalloc_info false], by simp [World.call], by simp, by simp,
      by simp [Event.carries]⟩
  · simp only [Bool.true_eq_false, if_false]
    by_cases hc : flags &&& cfg.ION_FLAG_CACHED ≠ 0
    · rw [if_pos hc]
      unfold dma_alloc_attrs
      by_cases hd : env.dma_cpu_addr ≠ 0 ∧
          size ≤ (w.call (Event.kzalloc_info true)).dma_avail cma_heap.heap.dev
      · rw [if_pos hd]
        simp only [hd.1, if_false]
        exact ⟨[Event.kzalloc_info true, Event.dma_alloc_attrs cma_heap.heap.dev size
          env.dma_cpu_addr env.dma_handle], by simp [World.call], by simp,
          fun _ h => absurd h hc, by simp [Event.carries]⟩
      · rw [if_neg hd]
        simp only [if_true]
        exact ⟨[Event.kzalloc_info true, Event.dma_alloc_attrs cma_heap.heap.dev size 0 0],
          by simp [World.call], by simp, fun _ h => absurd h hc, by simp [Event.carries]⟩
    · rw [if_neg hc]
      unfold cma_alloc
      by_cases hd : env.cma_alloc_ret ≠ 0 ∧
          nr_pages ≤ (w.call (Event.kzalloc_info true)).cma_avail cma_heap.cma
      · rw [if_pos hd]
        simp only [hd.1, if_false]
        exact ⟨[Event.kzalloc_info true, Event.cma_alloc cma_heap.cma nr_pages align
          env.cma_alloc_ret], by simp [World.call],
          by simp only [List.mem_cons, List.mem_singleton, Event.cma_alloc.injEq, false_or,
               List.mem_nil_iff, or_false, reduceCtorEq]
             intro c n a p h
             exact ⟨h.1, h.2.1, h.2.2.1⟩,
          fun _ _ => ⟨env.cma_alloc_ret, by simp⟩, by simp [Event.carries]⟩
      · rw [if_neg hd]
        simp only [if_true]
        exact ⟨[Event.kzalloc_info true, Event.cma_alloc cma_heap.cma nr_pages align 0],
          by simp [World.call],
          by simp only [List.mem_cons, List.mem_singleton, Event.cma_alloc.injEq, false_or,
               List.mem_nil_iff, or_false, reduceCtorEq]
             intro c n a p h
             exact ⟨h.1, h.2.1, h.2.2.1⟩,
          fun _ _ => ⟨0, by simp⟩, by simp [Event.carries]⟩

theorem allocate_calls (cfg : Config) (env : Env) (cma_heap : ion_cma_heap)
    (buffer : ion_buffer) (len flags : Nat) (w : World) :
    ∃ tail, (ion_cma_allocate cfg env cma_heap buffer len flags w).world.calls =
        (allocate_acquire cfg env cma_heap len flags w).2.calls ++ tail ∧
      (∀ c n a p, Event.cma_alloc c n a p ∉ tail) ∧
      (∀ e ∈ tail, Event.carries (PAGE_ALIGN cfg len % ULONG_MOD)
        ((PAGE_ALIGN cfg len % ULONG_MOD) >>> cfg.PAGE_SHIFT) e) := by
  rcases hacq : allocate_acquire cfg env cma_heap len flags w with ⟨a, w1⟩
  cases a with
  | no_record =>
    refine ⟨[], ?_, by simp, by simp⟩
    unfold allocate_acquire at hacq
    unfold ion_cma_allocate
    simp only [] at hacq ⊢
    rw [hacq]
    simp
  | no_memory info =>
    refine ⟨[Event.kfree_info], ?_, by simp, by simp [Event.carries]⟩
    unfold allocate_acquire at hacq
    unfold ion_cma_allocate
    simp only [] at hacq ⊢
    rw [hacq]
    simp [free_info, World.call]
  | ok info pages =>
    rw [allocate_eq_of_acquired cfg env cma_heap buffer len flags w w1 info pages hacq]
    simp only [zero_pages_eq_memset]
    cases hk : env.kmalloc_table_ok
    · simp only [if_true, err_alloc_world]
      by_cases hcpu : info.cpu_addr ≠ 0
      · exact ⟨_, by simp [hcpu, World.call, dma_free_attrs, memset]; rfl, by simp,
          by simp [Event.carries]⟩
      · exact ⟨_, by simp [hcpu, World.call, cma_release, memset]; rfl, by simp,
          by simp [Event.carries]⟩
    · by_cases hs : env.sg_alloc_table_ret ≠ 0
      · simp only [Bool.true_eq_false, if_false, hs, ne_eq, not_false_eq_true, if_true,
          free_table, err_alloc_world]
        by_cases hcpu : info.cpu_addr ≠ 0
        · exact ⟨_, by simp [hcpu, World.call, dma_free_attrs, memset]; rfl, by simp,
          by simp [Event.carries]⟩
        · exact ⟨_, by simp [hcpu, World.call, cma_release, memset]; rfl, by simp,
          by simp [Event.carries]⟩
      · simp only [Bool.true_eq_false, if_false, hs, ne_eq, if_false]
        exact ⟨_, by simp [World.call, memset]; rfl, by simp,
          by simp [Event.carries]⟩

/-- C9: the alignment order `ion_cma_allocate` computes is
`min(get_order(size), CONFIG_CMA_ALIGNMENT)` for `size` the page-aligned
length, and every `cma_alloc` call the function makes receives that order, the
clamped `CONFIG_CMA_ALIGNMENT` when the natural order exceeds it; such a call
is made whenever the record was allocated and no cached mapping is requested
after the flag update. -/
theorem region_acquired_with_clamped_order (cfg : Config) (env : Env) (cma_heap : ion_cma_heap)
    (buffer : ion_buffer) (len flags : Nat) (w : World) :
    cma_align cfg env (PAGE_ALIGN cfg len % ULONG_MOD) =
      min (env.get_order (PAGE_ALIGN cfg len % ULONG_MOD)) cfg.CONFIG_CMA_ALIGNMENT ∧
    ∃ evs, (ion_cma_allocate cfg env cma_heap buffer len flags w).world.calls = w.calls ++ evs ∧
      (∀ c n a p, Event.cma_alloc c n a p ∈ evs →
        a = min (env.get_order (PAGE_ALIGN cfg len % ULONG_MOD)) cfg.CONFIG_CMA_ALIGNMENT ∧
        (cfg.CONFIG_CMA_ALIGNMENT < env.get_order (PAGE_ALIGN cfg len % ULONG_MOD) →
          a = cfg.CONFIG_CMA_ALIGNMENT)) ∧
      (env.kzalloc_info_ok = true →
        (if env.ion_cma_has_kernel_mapping cma_heap = false then clear_cached cfg flags
         else flags) &&& cfg.ION_FLAG_CACHED = 0 →
        ∃ p, Event.cma_alloc cma_heap.cma ((PAGE_ALIGN cfg len % ULONG_MOD) >>> cfg.PAGE_SHIFT)
          (min (env.get_order (PAGE_ALIGN cfg len % ULONG_MOD)) cfg.CONFIG_CMA_ALIGNMENT) p ∈
            evs) := by
  refine ⟨cma_align_eq_min cfg env _, ?_⟩
  obtain ⟨tail, htail, hno, -⟩ := allocate_calls cfg env cma_heap buffer len flags w
  obtain ⟨evs, hevs, hall, hex, -⟩ := acquire_calls cfg env cma_heap
    (PAGE_ALIGN cfg len % ULONG_MOD) ((PAGE_ALIGN cfg len % ULONG_MOD) >>> cfg.PAGE_SHIFT)
    (cma_align cfg env (PAGE_ALIGN cfg len % ULONG_MOD))
    (if env.ion_cma_has_kernel_mapping cma_heap = false then clear_cached cfg flags else flags) w
  have hacq : (allocate_acquire cfg env cma_heap len flags w).2.calls = w.calls ++ evs := hevs
  rw [cma_align_eq_min] at hall hex
  refine ⟨evs ++ tail, by rw [htail, hacq, List.append_assoc], ?_, ?_⟩
  · intro c n a p hmem
    rcases List.mem_append.mp hmem with h | h
    · obtain ⟨-, -, ha⟩ := hall c n a p h
      exact ⟨ha, fun hlt => by rw [ha]; exact min_eq_right (le_of_lt hlt)⟩
    · exact absurd h (hno c n a p)
  · intro hk hc
    obtain ⟨p, hp⟩ := hex hk hc
    exact ⟨p, List.mem_append.mpr (Or.inl hp)⟩

theorem allocate_call_sizes (cfg : Config) (env : Env) (cma_heap : ion_cma_heap)
    (buffer : ion_buffer) (len flags : Nat) (w : World) :
    ∃ evs, (ion_cma_allocate cfg env cma_heap buffer len flags w).world.calls = w.calls ++ evs ∧
      ∀ e ∈ evs, Event.carries (PAGE_ALIGN cfg len % ULONG_MOD)
        ((PAGE_ALIGN cfg len % ULONG_MOD) >>> cfg.PAGE_SHIFT) e := by
  obtain ⟨tail, htail, -, htl⟩ := allocate_calls cfg env cma_heap buffer len flags w
  obtain ⟨evs, hevs, -, -, hev⟩ := acquire_calls cfg env cma_heap
    (PAGE_ALIGN cfg len % ULONG_MOD) ((PAGE_ALIGN cfg len % ULONG_MOD) >>> cfg.PAGE_SHIFT)
    (cma_align cfg env (PAGE_ALIGN cfg len % ULONG_MOD))
    (if env.ion_cma_has_kernel_mapping cma_heap = false then clear_cached cfg flags else flags) w
  have hacq : (allocate_acquire cfg env cma_heap len flags w).2.calls = w.calls ++ evs := hevs
  refine ⟨evs ++ tail, by rw [htail, hacq, List.append_assoc], ?_⟩
  intro e he
  rcases List.mem_append.mp he with h | h
  · exact hev e h
  · exact htl e h

/-- C3, as the code behaves: for a length `s > 0` with
`s + PAGE_SIZE <= 2 ^ 64`, the size `ion_cma_allocate` computes is
`ceil(s / PAGE_SIZE) * PAGE_SIZE` and is not zero; every acquisition and
release call `ion_cma_allocate` makes carries that byte size (coherent-DMA
calls) or that size `>> PAGE_SHIFT` as page count (region calls); and
`ion_cma_free` on a buffer of recorded size `s` releases that byte size on the
DMA path and that size `>> PAGE_SHIFT` pages on the region path. -/
theorem size_is_page_ceiling (cfg : Config) (s : Nat) (hpos : 0 < s)
    (hfit : s + PAGE_SIZE cfg ≤ ULONG_MOD) :
    PAGE_ALIGN cfg s % ULONG_MOD = ⌈(s : ℚ) / (PAGE_SIZE cfg : ℚ)⌉₊ * PAGE_SIZE cfg ∧
    0 < PAGE_ALIGN cfg s % ULONG_MOD ∧
    (∀ (env : Env) (cma_heap : ion_cma_heap) (buffer : ion_buffer) (flags : Nat) (w : World),
      ∃ evs,
        (ion_cma_allocate cfg env cma_heap buffer s flags w).world.calls = w.calls ++ evs ∧
        ∀ e ∈ evs, Event.carries (⌈(s : ℚ) / (PAGE_SIZE cfg : ℚ)⌉₊ * PAGE_SIZE cfg)
          ((⌈(s : ℚ) / (PAGE_SIZE cfg : ℚ)⌉₊ * PAGE_SIZE cfg) >>> cfg.PAGE_SHIFT) e) ∧
    (∀ (buffer : ion_buffer) (info : ion_cma_buffer_info) (table : sg_table) (w : World),
      buffer.size = s → buffer.priv_virt = some info → buffer.sg_table = some table →
      ∃ w2, ion_cma_free cfg buffer w = some w2 ∧
        w2.calls = w.calls ++
          [if info.cpu_addr ≠ 0 then
             Event.dma_free_attrs buffer.heap.heap.dev
               (⌈(s : ℚ) / (PAGE_SIZE cfg : ℚ)⌉₊ * PAGE_SIZE cfg) info.cpu_addr info.handle
           else
             Event.cma_release buffer.heap.cma table.sgl.page
               ((⌈(s : ℚ) / (PAGE_SIZE cfg : ℚ)⌉₊ * PAGE_SIZE cfg) >>> cfg.PAGE_SHIFT),
           Event.sg_free_table, Event.kfree_table, Event.kfree_info]) := by
  have hsz : PAGE_ALIGN cfg s % ULONG_MOD =
      ⌈(s : ℚ) / (PAGE_SIZE cfg : ℚ)⌉₊ * PAGE_SIZE cfg := by
    rw [← page_align_eq_ceil]
    exact Nat.mod_eq_of_lt (by have := (page_align_bounds cfg s).2; omega)
  have hlt : PAGE_ALIGN cfg s < ULONG_MOD := by
    have := (page_align_bounds cfg s).2
    omega
  refine ⟨hsz, ?_, ?_, ?_⟩
  · rw [Nat.mod_eq_of_lt hlt]
    exact lt_of_lt_of_le hpos (page_align_bounds cfg s).1
  · intro env cma_heap buffer flags w
    have h := allocate_call_sizes cfg env cma_heap buffer s flags w
    rw [hsz] at h
    exact h
  · intro buffer info table w hs hp ht
    unfold ion_cma_free
    simp only [hp, ht, hs, hsz]
    refine ⟨_, rfl, ?_⟩
    by_cases hcpu : info.cpu_addr ≠ 0
    · simp [hcpu, World.call, dma_free_attrs]
    · simp [hcpu, World.call, cma_release]

/-- Witness for C3: a length of 5000 bytes with 4 KiB pages. -/
theorem size_is_page_ceiling_witness :
    0 < 5000 ∧ 5000 + PAGE_SIZE cfg2 ≤ ULONG_MOD ∧
    PAGE_ALIGN cfg2 5000 % ULONG_MOD =
      ⌈((5000 : Nat) : ℚ) / (PAGE_SIZE cfg2 : ℚ)⌉₊ * PAGE_SIZE cfg2 :=
  ⟨by decide, by decide, (size_is_page_ceiling cfg2 5000 (by decide) (by decide)).1⟩

/-- C3 fails as stated: for the length `2 ^ 64 - 1` and 4 KiB pages the size
computed in `unsigned long` is `0`, while `ceil(s / PAGE_SIZE) * PAGE_SIZE` is
`2 ^ 64`; `ion_cma_allocate` then asks the region for `0` pages. -/
theorem size_wraps_at_ulong_max :
    PAGE_ALIGN cfg2 (2 ^ 64 - 1) % ULONG_MOD = 0 ∧
    ⌈((2 ^ 64 - 1 : Nat) : ℚ) / (PAGE_SIZE cfg2 : ℚ)⌉₊ * PAGE_SIZE cfg2 = 2 ^ 64 ∧
    (ion_cma_allocate cfg2 (env_example false false false 0) heap_example
        (buffer_example (2 ^ 64 - 1) 0) (2 ^ 64 - 1) 0 world_example).world.calls =
      [Event.kzalloc_info true, Event.cma_alloc 3 0 8 256, Event.kmalloc_table false,
       Event.cma_release 3 256 0, Event.kfree_info] := by
  refine ⟨by decide, ?_, by decide⟩
  rw [← page_align_eq_ceil]
  decide

/-- Witness for C9: a request of 4 MiB has natural order 10, above the
configured maximum of 8. -/
theorem region_acquired_with_clamped_order_witness :
    (env_example false false true 0).get_order (PAGE_ALIGN cfg2 4194304 % ULONG_MOD) = 10 ∧
    cma_align cfg2 (env_example false false true 0) (PAGE_ALIGN cfg2 4194304 % ULONG_MOD) =
      min ((env_example false false true 0).get_order (PAGE_ALIGN cfg2 4194304 % ULONG_MOD))
        cfg2.CONFIG_CMA_ALIGNMENT :=
  ⟨by decide,
    (region_acquired_with_clamped_order cfg2 (env_example false false true 0) heap_example
      (buffer_example 4194304 0) 4194304 0 world_example).1⟩

end IonCma
